import Mathlib

/-!
Verification development for the RealistikGDPS server core: the bounded
LRU memory caches (`rgdps/utilities/cache/memory.py`), the level
repository with its MeiliSearch mirror (`ognisko/resources/level.py`),
the user-relationship repository
(`rgdps/repositories/user_relationship.py`), and the cache-backed
account lookup facade (`realistikgdps/repositories/account.py`).

Python dicts are modelled as association lists in insertion order with
unique keys maintained by the operations, matching CPython's ordered
dict semantics.  Machine integers are `Int`/`Nat` (Python integers are
unbounded).  Fallible lookups return `Option`.
-/

set_option autoImplicit false

namespace RGDPS

universe u v

/-! ### Ordered-dict primitives (CPython dict semantics) -/

/-- First value bound to `k`, as `dict.get`. -/
def dictGet {K : Type u} {V : Type v} [DecidableEq K] : List (K × V) → K → Option V
  | [], _ => none
  | (k2, v) :: rest, k => if k2 = k then some v else dictGet rest k

/-- `del d[k]`: drop the binding of `k`, keeping the order of the rest. -/
def dictRemove {K : Type u} {V : Type v} [DecidableEq K] : List (K × V) → K → List (K × V)
  | [], _ => []
  | (k2, v) :: rest, k => if k2 = k then rest else (k2, v) :: dictRemove rest k

/-- `d[k] = v`: overwrite in place when present (keeping the slot's
position, as CPython does), otherwise append at the end. -/
def dictSet {K : Type u} {V : Type v} [DecidableEq K] : List (K × V) → K → V → List (K × V)
  | [], k, v => [(k, v)]
  | (k2, v2) :: rest, k, v =>
    if k2 = k then (k, v) :: rest else (k2, v2) :: dictSet rest k v

/-! ### Cache keys -/

/-- `KeyType` from `rgdps.utilities.cache.base`: keys may be integers or
strings. -/
inductive KeyType where
  | intKey (n : Int)
  | strKey (s : String)
deriving DecidableEq

/-- `_ensure_key_type`: convert the key to a string (`str(key)`), so that
`1` and `"1"` address the same slot. -/
def ensure_key_type : KeyType → String
  | .intKey n => toString n
  | .strKey s => s

/-! ### `SimpleMemoryCache` -/

/-- State of `SimpleMemoryCache[T]`: the `_cache` dict. -/
structure SimpleMemoryCache (V : Type v) where
  entries : List (String × V)
deriving DecidableEq

/-- `SimpleMemoryCache.get`: dictionary lookup under the canonical key
(the value is returned as a `copy.copy`, which is value-identical). -/
def SimpleMemoryCache.get {V : Type v} (c : SimpleMemoryCache V) (key : KeyType) : Option V :=
  dictGet c.entries (ensure_key_type key)

/-- `SimpleMemoryCache.set`: plain dict assignment under the canonical key. -/
def SimpleMemoryCache.set {V : Type v} (c : SimpleMemoryCache V) (key : KeyType) (v : V) :
    SimpleMemoryCache V :=
  ⟨dictSet c.entries (ensure_key_type key) v⟩

/-- `SimpleMemoryCache.delete`: `del` under the canonical key; a `KeyError`
on an absent key is swallowed (no-op). -/
def SimpleMemoryCache.delete {V : Type v} (c : SimpleMemoryCache V) (key : KeyType) :
    SimpleMemoryCache V :=
  ⟨dictRemove c.entries (ensure_key_type key)⟩

/-! ### `LRUMemoryCache` -/

/-- State of `LRUMemoryCache[T]`: capacity plus the `_cache` dict whose
insertion order is the recency order (front = least recently used). -/
structure LRUMemoryCache (V : Type v) where
  capacity : Nat
  entries : List (String × V)
deriving DecidableEq

/-- The `while len(self._cache) >= self._capacity:` eviction loop of
`LRUMemoryCache.set`: repeatedly delete the first (least recently used)
entry while the entry count is at or above capacity.  (For capacity `0`
the Python loop would fault on an empty dict; the model returns `[]`.) -/
def evictToBelow {V : Type v} (cap : Nat) : List (String × V) → List (String × V)
  | [] => []
  | e :: rest => if cap ≤ (e :: rest).length then evictToBelow cap rest else e :: rest

/-- `LRUMemoryCache.get`: on a hit, delete and re-insert the binding
(moving it to most-recently-used) and return the value (a `copy.copy`,
value-identical); on a miss return `none` with the state unchanged. -/
def LRUMemoryCache.get {V : Type v} (c : LRUMemoryCache V) (key : KeyType) :
    Option V × LRUMemoryCache V :=
  let ks := ensure_key_type key
  match dictGet c.entries ks with
  | none => (none, c)
  | some v => (some v, ⟨c.capacity, dictRemove c.entries ks ++ [(ks, v)]⟩)

/-- `LRUMemoryCache.set`: evict one entry at a time while the entry count
is at or above capacity, then assign under the canonical key. -/
def LRUMemoryCache.set {V : Type v} (c : LRUMemoryCache V) (key : KeyType) (v : V) :
    LRUMemoryCache V :=
  ⟨c.capacity, dictSet (evictToBelow c.capacity c.entries) (ensure_key_type key) v⟩

/-- `LRUMemoryCache.delete`: `del` under the canonical key, absent key a
no-op. -/
def LRUMemoryCache.delete {V : Type v} (c : LRUMemoryCache V) (key : KeyType) :
    LRUMemoryCache V :=
  ⟨c.capacity, dictRemove c.entries (ensure_key_type key)⟩

/-- A fresh `LRUMemoryCache(capacity)`. -/
def LRUMemoryCache.empty (V : Type v) (capacity : Nat) : LRUMemoryCache V :=
  ⟨capacity, []⟩

/-! ### Async variants

`SimpleAsyncMemoryCache` and `LRUAsyncMemoryCache` duplicate the bodies
of the sync classes, except that their `get` returns the stored value
itself rather than a `copy.copy` of it.  On pure values that difference
is invisible; it is modelled explicitly at the heap level below. -/

/-- State of `SimpleAsyncMemoryCache[T]`. -/
structure SimpleAsyncMemoryCache (V : Type v) where
  entries : List (String × V)
deriving DecidableEq

/-- `SimpleAsyncMemoryCache.get` (no copy is taken). -/
def SimpleAsyncMemoryCache.get {V : Type v} (c : SimpleAsyncMemoryCache V) (key : KeyType) :
    Option V :=
  dictGet c.entries (ensure_key_type key)

/-- `SimpleAsyncMemoryCache.set`. -/
def SimpleAsyncMemoryCache.set {V : Type v} (c : SimpleAsyncMemoryCache V) (key : KeyType)
    (v : V) : SimpleAsyncMemoryCache V :=
  ⟨dictSet c.entries (ensure_key_type key) v⟩

/-- `SimpleAsyncMemoryCache.delete`. -/
def SimpleAsyncMemoryCache.delete {V : Type v} (c : SimpleAsyncMemoryCache V) (key : KeyType) :
    SimpleAsyncMemoryCache V :=
  ⟨dictRemove c.entries (ensure_key_type key)⟩

/-- State of `LRUAsyncMemoryCache[T]`. -/
structure LRUAsyncMemoryCache (V : Type v) where
  capacity : Nat
  entries : List (String × V)
deriving DecidableEq

/-- `LRUAsyncMemoryCache.get`: same move-to-most-recent behaviour as the
sync class, but the stored value itself is returned (no copy). -/
def LRUAsyncMemoryCache.get {V : Type v} (c : LRUAsyncMemoryCache V) (key : KeyType) :
    Option V × LRUAsyncMemoryCache V :=
  let ks := ensure_key_type key
  match dictGet c.entries ks with
  | none => (none, c)
  | some v => (some v, ⟨c.capacity, dictRemove c.entries ks ++ [(ks, v)]⟩)

/-- `LRUAsyncMemoryCache.set`: identical body to the sync class. -/
def LRUAsyncMemoryCache.set {V : Type v} (c : LRUAsyncMemoryCache V) (key : KeyType) (v : V) :
    LRUAsyncMemoryCache V :=
  ⟨c.capacity, dictSet (evictToBelow c.capacity c.entries) (ensure_key_type key) v⟩

/-- `LRUAsyncMemoryCache.delete`. -/
def LRUAsyncMemoryCache.delete {V : Type v} (c : LRUAsyncMemoryCache V) (key : KeyType) :
    LRUAsyncMemoryCache V :=
  ⟨c.capacity, dictRemove c.entries (ensure_key_type key)⟩

/-- A fresh `LRUAsyncMemoryCache(capacity)`. -/
def LRUAsyncMemoryCache.empty (V : Type v) (capacity : Nat) : LRUAsyncMemoryCache V :=
  ⟨capacity, []⟩

/-- Forget the (ir)relevance of the async marker: the async LRU cache
carries exactly the same state as the sync one. -/
def LRUAsyncMemoryCache.toSync {V : Type v} (c : LRUAsyncMemoryCache V) : LRUMemoryCache V :=
  ⟨c.capacity, c.entries⟩

/-! ### Lemmas about the ordered-dict primitives -/

theorem ensure_key_type_strKey (s : String) : ensure_key_type (.strKey s) = s := rfl

theorem ensure_key_type_intKey (n : Int) : ensure_key_type (.intKey n) = toString n := rfl

theorem dictGet_dictSet_self {K : Type u} {V : Type v} [DecidableEq K]
    (l : List (K × V)) (k : K) (v : V) : dictGet (dictSet l k v) k = some v := by
  induction l with
  | nil => simp [dictGet, dictSet]
  | cons p rest ih =>
    obtain ⟨k2, v2⟩ := p
    by_cases h : k2 = k <;> simp [dictGet, dictSet, h, ih]

theorem dictGet_eq_none_iff {K : Type u} {V : Type v} [DecidableEq K]
    (l : List (K × V)) (k : K) : dictGet l k = none ↔ k ∉ l.map Prod.fst := by
  induction l with
  | nil => simp [dictGet]
  | cons p rest ih =>
    obtain ⟨k2, v2⟩ := p
    by_cases h : k2 = k
    · subst h; simp [dictGet]
    · rw [dictGet]
      simp only [h, if_false, ih, List.map_cons, List.mem_cons, not_or]
      exact ⟨fun hn => ⟨fun he => h he.symm, hn⟩, fun hn => hn.2⟩

theorem dictSet_of_fresh {K : Type u} {V : Type v} [DecidableEq K]
    (l : List (K × V)) (k : K) (v : V) (h : dictGet l k = none) :
    dictSet l k v = l ++ [(k, v)] := by
  induction l with
  | nil => simp [dictSet]
  | cons p rest ih =>
    obtain ⟨k2, v2⟩ := p
    rw [dictGet] at h
    by_cases hk : k2 = k
    · simp [hk] at h
    · simp [dictSet, hk, ih (by simpa [hk] using h)]

theorem dictRemove_length_le {K : Type u} {V : Type v} [DecidableEq K]
    (l : List (K × V)) (k : K) : (dictRemove l k).length ≤ l.length := by
  induction l with
  | nil => simp [dictRemove]
  | cons p rest ih =>
    obtain ⟨k2, v2⟩ := p
    by_cases h : k2 = k <;> simp [dictRemove, h] <;> omega

theorem dictRemove_length_of_hit {K : Type u} {V : Type v} [DecidableEq K]
    (l : List (K × V)) (k : K) (v : V) (h : dictGet l k = some v) :
    (dictRemove l k).length + 1 = l.length := by
  induction l with
  | nil => simp [dictGet] at h
  | cons p rest ih =>
    obtain ⟨k2, v2⟩ := p
    rw [dictGet] at h
    by_cases hk : k2 = k
    · simp [dictRemove, hk]
    · simp only [hk, if_false] at h
      simp [dictRemove, hk, ih h]

theorem mem_of_mem_dictRemove {K : Type u} {V : Type v} [DecidableEq K]
    {l : List (K × V)} {k : K} {p : K × V} (h : p ∈ dictRemove l k) : p ∈ l := by
  induction l with
  | nil => simpa [dictRemove] using h
  | cons q rest ih =>
    obtain ⟨k2, v2⟩ := q
    by_cases hk : k2 = k
    · simp only [dictRemove, hk, if_true] at h
      exact List.mem_cons_of_mem _ h
    · simp only [dictRemove, hk, if_false] at h
      rcases List.mem_cons.mp h with h1 | h1
      · exact h1 ▸ List.mem_cons_self _ _
      · exact List.mem_cons_of_mem _ (ih h1)

theorem mem_of_dictGet {K : Type u} {V : Type v} [DecidableEq K]
    {l : List (K × V)} {k : K} {v : V} (h : dictGet l k = some v) : (k, v) ∈ l := by
  induction l with
  | nil => simp [dictGet] at h
  | cons p rest ih =>
    obtain ⟨k2, v2⟩ := p
    rw [dictGet] at h
    by_cases hk : k2 = k
    · simp only [hk, if_true, Option.some.injEq] at h
      subst hk; subst h; exact List.mem_cons_self _ _
    · simp only [hk, if_false] at h
      exact List.mem_cons_of_mem _ (ih h)

theorem dictSet_length_le {K : Type u} {V : Type v} [DecidableEq K]
    (l : List (K × V)) (k : K) (v : V) : (dictSet l k v).length ≤ l.length + 1 := by
  induction l with
  | nil => simp [dictSet]
  | cons p rest ih =>
    obtain ⟨k2, v2⟩ := p
    by_cases h : k2 = k <;> simp [dictSet, h] <;> omega

/-! ### Lemmas about the eviction loop -/

theorem evictToBelow_eq_drop {V : Type v} (cap : Nat) (hcap : 1 ≤ cap)
    (l : List (String × V)) : evictToBelow cap l = l.drop (l.length + 1 - cap) := by
  induction l with
  | nil => simp [evictToBelow]
  | cons e rest ih =>
    rw [evictToBelow]
    by_cases h : cap ≤ (e :: rest).length
    · simp only [List.length_cons] at h
      have harith : rest.length + 1 + 1 - cap = (rest.length + 1 - cap) + 1 := by omega
      simp only [h, if_true, List.length_cons, harith, List.drop_succ_cons]
      exact ih
    · simp only [List.length_cons] at h
      have harith : rest.length + 1 + 1 - cap = 0 := by omega
      simp [h, harith]

theorem evictToBelow_length_lt {V : Type v} (cap : Nat) (hcap : 1 ≤ cap)
    (l : List (String × V)) : (evictToBelow cap l).length < cap := by
  rw [evictToBelow_eq_drop cap hcap, List.length_drop]
  omega

theorem evictToBelow_of_lt {V : Type v} (cap : Nat) (hcap : 1 ≤ cap)
    (l : List (String × V)) (h : l.length < cap) : evictToBelow cap l = l := by
  rw [evictToBelow_eq_drop cap hcap]
  have : l.length + 1 - cap = 0 := by omega
  simp [this]

theorem evictToBelow_of_full {V : Type v} (cap : Nat) (hcap : 1 ≤ cap)
    (l : List (String × V)) (h : l.length = cap) : evictToBelow cap l = l.tail := by
  rw [evictToBelow_eq_drop cap hcap]
  have : l.length + 1 - cap = 1 := by omega
  simp [this, List.drop_one]

/-! ### Operation sequences on the LRU caches -/

/-- One call of the public cache interface. -/
inductive CacheOp (V : Type v) where
  | get (key : KeyType)
  | set (key : KeyType) (v : V)
  | delete (key : KeyType)

/-- Apply one interface call to a sync LRU cache (the state effect of
`get`/`set`/`delete`). -/
def LRUMemoryCache.applyOp {V : Type v} (c : LRUMemoryCache V) : CacheOp V → LRUMemoryCache V
  | .get k => (LRUMemoryCache.get c k).2
  | .set k v => LRUMemoryCache.set c k v
  | .delete k => LRUMemoryCache.delete c k

/-- Run a sequence of interface calls on a sync LRU cache. -/
def LRUMemoryCache.runOps {V : Type v} (c : LRUMemoryCache V) (ops : List (CacheOp V)) :
    LRUMemoryCache V :=
  ops.foldl LRUMemoryCache.applyOp c

/-- Apply one interface call to an async LRU cache. -/
def LRUAsyncMemoryCache.applyOp {V : Type v} (c : LRUAsyncMemoryCache V) :
    CacheOp V → LRUAsyncMemoryCache V
  | .get k => (LRUAsyncMemoryCache.get c k).2
  | .set k v => LRUAsyncMemoryCache.set c k v
  | .delete k => LRUAsyncMemoryCache.delete c k

/-- Run a sequence of interface calls on an async LRU cache. -/
def LRUAsyncMemoryCache.runOps {V : Type v} (c : LRUAsyncMemoryCache V)
    (ops : List (CacheOp V)) : LRUAsyncMemoryCache V :=
  ops.foldl LRUAsyncMemoryCache.applyOp c

theorem lru_set_entries_le {V : Type v} (c : LRUMemoryCache V) (k : KeyType) (v : V)
    (hcap : 1 ≤ c.capacity) : (LRUMemoryCache.set c k v).entries.length ≤ c.capacity := by
  have h1 := evictToBelow_length_lt c.capacity hcap c.entries
  have h2 := dictSet_length_le (evictToBelow c.capacity c.entries) (ensure_key_type k) v
  simp only [LRUMemoryCache.set]
  omega

theorem lru_get_entries_eq {V : Type v} (c : LRUMemoryCache V) (k : KeyType) :
    (LRUMemoryCache.get c k).2.entries.length = c.entries.length := by
  rw [LRUMemoryCache.get]
  cases hd : dictGet c.entries (ensure_key_type k) with
  | none => rfl
  | some v =>
    have := dictRemove_length_of_hit c.entries (ensure_key_type k) v hd
    simp only [List.length_append, List.length_cons, List.length_nil]
    omega

theorem lru_delete_entries_le {V : Type v} (c : LRUMemoryCache V) (k : KeyType) :
    (LRUMemoryCache.delete c k).entries.length ≤ c.entries.length :=
  dictRemove_length_le c.entries (ensure_key_type k)

theorem lru_applyOp_capacity {V : Type v} (c : LRUMemoryCache V) (op : CacheOp V) :
    (LRUMemoryCache.applyOp c op).capacity = c.capacity := by
  cases op with
  | get k =>
    simp only [LRUMemoryCache.applyOp, LRUMemoryCache.get]
    cases dictGet c.entries (ensure_key_type k) <;> rfl
  | set k v => rfl
  | delete k => rfl

theorem lru_applyOp_entries_le {V : Type v} (c : LRUMemoryCache V) (op : CacheOp V)
    (hcap : 1 ≤ c.capacity) (hlen : c.entries.length ≤ c.capacity) :
    (LRUMemoryCache.applyOp c op).entries.length ≤ c.capacity := by
  cases op with
  | get k => rw [LRUMemoryCache.applyOp, lru_get_entries_eq]; exact hlen
  | set k v => exact lru_set_entries_le c k v hcap
  | delete k => exact le_trans (lru_delete_entries_le c k) hlen

theorem lru_runOps_entries_le {V : Type v} (ops : List (CacheOp V)) (c : LRUMemoryCache V)
    (hcap : 1 ≤ c.capacity) (hlen : c.entries.length ≤ c.capacity) :
    (LRUMemoryCache.runOps c ops).entries.length ≤ c.capacity := by
  induction ops generalizing c with
  | nil => exact hlen
  | cons op rest ih =>
    have hc := lru_applyOp_capacity c op
    have := ih (LRUMemoryCache.applyOp c op) (hc ▸ hcap)
      (hc ▸ lru_applyOp_entries_le c op hcap hlen)
    simpa [LRUMemoryCache.runOps, hc] using this

/-- The async structures carry the same data; transporting along
`toSync` equates the two families of operations. -/
theorem async_toSync_applyOp {V : Type v} (c : LRUAsyncMemoryCache V) (op : CacheOp V) :
    (LRUAsyncMemoryCache.applyOp c op).toSync = LRUMemoryCache.applyOp c.toSync op := by
  cases op with
  | get k =>
    simp only [LRUAsyncMemoryCache.applyOp, LRUMemoryCache.applyOp,
      LRUAsyncMemoryCache.get, LRUMemoryCache.get, LRUAsyncMemoryCache.toSync]
    cases dictGet c.entries (ensure_key_type k) <;> rfl
  | set k v => rfl
  | delete k => rfl

theorem async_toSync_runOps {V : Type v} (ops : List (CacheOp V)) (c : LRUAsyncMemoryCache V) :
    (LRUAsyncMemoryCache.runOps c ops).toSync = LRUMemoryCache.runOps c.toSync ops := by
  induction ops generalizing c with
  | nil => rfl
  | cons op rest ih =>
    simp only [LRUAsyncMemoryCache.runOps, LRUMemoryCache.runOps, List.foldl_cons]
    rw [show List.foldl LRUMemoryCache.applyOp (LRUMemoryCache.applyOp c.toSync op) rest =
      LRUMemoryCache.runOps (LRUAsyncMemoryCache.applyOp c op).toSync rest from by
        rw [async_toSync_applyOp]; rfl]
    exact ih _

/-- C10: for every LRU memory cache (sync or async) with capacity at
least 1, the entry count stays at or below the capacity after every
sequence of `get`/`set`/`delete` calls starting from the empty cache;
moreover a single `set` restores the bound from any state whose length
is within capacity (or beyond), whether or not the key is already
present, because the eviction loop runs before the insertion. -/
theorem lru_capacity_invariant :
    (∀ (V : Type) (capacity : Nat), 1 ≤ capacity → ∀ ops : List (CacheOp V),
      (LRUMemoryCache.runOps (LRUMemoryCache.empty V capacity) ops).entries.length ≤ capacity) ∧
    (∀ (V : Type) (c : LRUMemoryCache V) (k : KeyType) (v : V), 1 ≤ c.capacity →
      (LRUMemoryCache.set c k v).entries.length ≤ c.capacity) ∧
    (∀ (V : Type) (capacity : Nat), 1 ≤ capacity → ∀ ops : List (CacheOp V),
      (LRUAsyncMemoryCache.runOps
        (LRUAsyncMemoryCache.empty V capacity) ops).entries.length ≤ capacity) := by
  refine ⟨?_, ?_, ?_⟩
  · intro V capacity hcap ops
    exact lru_runOps_entries_le ops (LRUMemoryCache.empty V capacity) hcap (by simp [LRUMemoryCache.empty])
  · intro V c k v hcap
    exact lru_set_entries_le c k v hcap
  · intro V capacity hcap ops
    have h := async_toSync_runOps ops (LRUAsyncMemoryCache.empty V capacity)
    have h2 : (LRUAsyncMemoryCache.runOps (LRUAsyncMemoryCache.empty V capacity) ops).entries =
        (LRUMemoryCache.runOps (LRUMemoryCache.empty V capacity) ops).entries := by
      rw [show LRUMemoryCache.empty V capacity =
        (LRUAsyncMemoryCache.empty V capacity).toSync from rfl, ← h]
      rfl
    rw [h2]
    exact lru_runOps_entries_le ops (LRUMemoryCache.empty V capacity) hcap (by simp [LRUMemoryCache.empty])

/-- Witness for C10 at capacity 2 and a concrete five-call sequence on
both variants, plus a `set` that overwrites a present key at capacity. -/
theorem lru_capacity_invariant_witness :
    (LRUMemoryCache.runOps (LRUMemoryCache.empty Nat 2)
      [.set (.intKey 1) 10, .set (.strKey "b") 20, .set (.strKey "c") 30,
       .get (.strKey "1"), .delete (.strKey "b")]).entries.length ≤ 2 ∧
    (LRUMemoryCache.set ⟨2, [("a", 1), ("b", 2)]⟩ (.strKey "a") 9).entries.length ≤ 2 ∧
    (LRUAsyncMemoryCache.runOps (LRUAsyncMemoryCache.empty Nat 2)
      [.set (.intKey 1) 10, .set (.strKey "b") 20, .set (.strKey "c") 30,
       .get (.strKey "1"), .delete (.strKey "b")]).entries.length ≤ 2 :=
  ⟨lru_capacity_invariant.1 Nat 2 (by decide) _,
   lru_capacity_invariant.2.1 Nat ⟨2, [("a", 1), ("b", 2)]⟩ (.strKey "a") 9 (by decide),
   lru_capacity_invariant.2.2 Nat 2 (by decide) _⟩

/-! ### Eviction-order facts for C3 -/

/-- Insert a list of string-keyed bindings in order via `set`. -/
def LRUMemoryCache.insertAll {V : Type v} (c : LRUMemoryCache V) (ps : List (String × V)) :
    LRUMemoryCache V :=
  ps.foldl (fun c2 p => LRUMemoryCache.set c2 (.strKey p.1) p.2) c

theorem dictGet_tail_none {K : Type u} {V : Type v} [DecidableEq K]
    (l : List (K × V)) (k : K) (h : dictGet l k = none) : dictGet l.tail k = none := by
  cases l with
  | nil => simpa using h
  | cons p rest =>
    obtain ⟨k2, v2⟩ := p
    rw [dictGet] at h
    by_cases hk : k2 = k
    · simp [hk] at h
    · simpa [hk] using h

/-- `set` of a fresh key on a full cache evicts exactly the front
(least-recently-used) entry and appends the new binding. -/
theorem lru_set_full_fresh {V : Type v} (c : LRUMemoryCache V) (k : String) (v : V)
    (hcap : 1 ≤ c.capacity) (hfull : c.entries.length = c.capacity)
    (hfresh : dictGet c.entries k = none) :
    (LRUMemoryCache.set c (.strKey k) v).entries = c.entries.tail ++ [(k, v)] := by
  rw [LRUMemoryCache.set]
  simp only [ensure_key_type_strKey]
  rw [evictToBelow_of_full c.capacity hcap c.entries hfull,
    dictSet_of_fresh _ _ _ (dictGet_tail_none c.entries k hfresh)]

/-- `set` of a fresh key below capacity appends without eviction. -/
theorem lru_set_not_full_fresh {V : Type v} (c : LRUMemoryCache V) (k : String) (v : V)
    (hcap : 1 ≤ c.capacity) (hroom : c.entries.length < c.capacity)
    (hfresh : dictGet c.entries k = none) :
    (LRUMemoryCache.set c (.strKey k) v).entries = c.entries ++ [(k, v)] := by
  rw [LRUMemoryCache.set]
  simp only [ensure_key_type_strKey]
  rw [evictToBelow_of_lt c.capacity hcap c.entries hroom, dictSet_of_fresh _ _ _ hfresh]

theorem lru_insertAll_capacity {V : Type v} (ps : List (String × V)) (c : LRUMemoryCache V) :
    (LRUMemoryCache.insertAll c ps).capacity = c.capacity := by
  induction ps generalizing c with
  | nil => rfl
  | cons p rest ih =>
    have hstep : LRUMemoryCache.insertAll c (p :: rest) =
        LRUMemoryCache.insertAll (LRUMemoryCache.set c (.strKey p.1) p.2) rest := rfl
    rw [hstep, ih]
    rfl

theorem lru_insertAll_below {V : Type v} (ps : List (String × V)) (c : LRUMemoryCache V)
    (hcap : 1 ≤ c.capacity)
    (hnodup : (c.entries.map Prod.fst ++ ps.map Prod.fst).Nodup)
    (hroom : c.entries.length + ps.length ≤ c.capacity) :
    (LRUMemoryCache.insertAll c ps).entries = c.entries ++ ps := by
  induction ps generalizing c with
  | nil => simp [LRUMemoryCache.insertAll]
  | cons p rest ih =>
    obtain ⟨k, v⟩ := p
    have hmem : k ∉ c.entries.map Prod.fst := by
      have hdisj := (List.nodup_append.mp hnodup).2.2
      exact fun hmem => hdisj hmem (by simp)
    have hfresh : dictGet c.entries k = none := (dictGet_eq_none_iff _ _).mpr hmem
    have happ := lru_set_not_full_fresh c k v hcap
      (by simp only [List.length_cons] at hroom; omega) hfresh
    have hstep : LRUMemoryCache.insertAll c ((k, v) :: rest) =
        LRUMemoryCache.insertAll (LRUMemoryCache.set c (.strKey k) v) rest := rfl
    rw [hstep, ih (LRUMemoryCache.set c (.strKey k) v)]
    · rw [happ]; simp
    · show 1 ≤ c.capacity
      exact hcap
    · rw [show (LRUMemoryCache.set c (.strKey k) v).entries.map Prod.fst =
          c.entries.map Prod.fst ++ [k] from by rw [happ]; simp]
      simpa using hnodup
    · have hlen2 : (LRUMemoryCache.set c (.strKey k) v).entries.length =
          c.entries.length + 1 := by rw [happ]; simp
      show (LRUMemoryCache.set c (.strKey k) v).entries.length + rest.length ≤ c.capacity
      rw [hlen2]
      simp only [List.length_cons] at hroom
      omega

/-- C3: (1) inserting `C + 1` distinct keys into an empty capacity-`C`
cache evicts exactly the first (least-recently-accessed) key; (2) on a
full cache a `get` of the oldest key moves it to most-recently-used, so
the next eviction removes the second-oldest instead of it; (3) `set`
evicts from the front, one entry at a time, while the entry count is at
or above capacity, before inserting the new binding. -/
theorem lru_eviction_order :
    (∀ (V : Type) (capacity : Nat) (ps : List (String × V)), 1 ≤ capacity →
      ps.length = capacity + 1 → (ps.map Prod.fst).Nodup →
      (LRUMemoryCache.insertAll (LRUMemoryCache.empty V capacity) ps).entries = ps.tail) ∧
    (∀ (V : Type) (c : LRUMemoryCache V) (k0 k1 k : String) (v0 v1 v : V)
      (rest : List (String × V)),
      c.entries = (k0, v0) :: (k1, v1) :: rest →
      c.entries.length = c.capacity →
      (c.entries.map Prod.fst).Nodup →
      k ∉ c.entries.map Prod.fst →
      (LRUMemoryCache.set c (.strKey k) v).entries = ((k1, v1) :: rest) ++ [(k, v)] ∧
      (LRUMemoryCache.set (LRUMemoryCache.get c (.strKey k0)).2 (.strKey k) v).entries =
        rest ++ [(k0, v0), (k, v)]) ∧
    (∀ (V : Type) (c : LRUMemoryCache V) (k : KeyType) (v : V), 1 ≤ c.capacity →
      c.capacity ≤ c.entries.length → dictGet c.entries (ensure_key_type k) = none →
      (LRUMemoryCache.set c k v).entries =
        c.entries.drop (c.entries.length + 1 - c.capacity) ++ [(ensure_key_type k, v)]) := by
  refine ⟨?_, ?_, ?_⟩
  · intro V capacity ps hcap hlen hnodup
    have htd : ps.take capacity ++ ps.drop capacity = ps := List.take_append_drop _ _
    have hlt : (ps.drop capacity).length = 1 := by
      rw [List.length_drop, hlen]; omega
    obtain ⟨q, hq⟩ : ∃ q, ps.drop capacity = [q] := by
      cases hd : ps.drop capacity with
      | nil => rw [hd] at hlt; simp at hlt
      | cons a tl =>
        rw [hd] at hlt
        have htl0 : tl = [] := by simpa using hlt
        exact ⟨a, by rw [htl0]⟩
    have hps : ps = ps.take capacity ++ [q] := by rw [← hq, htd]
    have htklen : (ps.take capacity).length = capacity := by
      rw [List.length_take, hlen]; omega
    have hkeys : ps.map Prod.fst = (ps.take capacity).map Prod.fst ++ [q.1] := by
      conv => lhs; rw [hps]
      simp
    have hnodup3 : ((ps.take capacity).map Prod.fst ++ [q.1]).Nodup := hkeys ▸ hnodup
    have hnodup2 : ((ps.take capacity).map Prod.fst).Nodup := hnodup3.of_append_left
    have hqnotin : q.1 ∉ (ps.take capacity).map Prod.fst := fun hmem =>
      (List.nodup_append.mp hnodup3).2.2 hmem (by simp)
    have hfill := lru_insertAll_below (ps.take capacity) (LRUMemoryCache.empty V capacity)
      hcap (by simpa [LRUMemoryCache.empty] using hnodup2)
      (by simp [LRUMemoryCache.empty, htklen])
    set c1 := LRUMemoryCache.insertAll (LRUMemoryCache.empty V capacity) (ps.take capacity)
      with hc1
    have hent1 : c1.entries = ps.take capacity := by
      rw [hc1, hfill]; simp [LRUMemoryCache.empty]
    have hcapc1 : c1.capacity = capacity := by
      rw [hc1, lru_insertAll_capacity]
      rfl
    have hsplit : LRUMemoryCache.insertAll (LRUMemoryCache.empty V capacity) ps =
        LRUMemoryCache.set c1 (.strKey q.1) q.2 := by
      conv => lhs; rw [hps]
      rw [LRUMemoryCache.insertAll, List.foldl_append]
      rfl
    rw [hsplit, lru_set_full_fresh c1 q.1 q.2 (by rw [hcapc1]; exact hcap)
      (by rw [hent1, htklen, hcapc1])
      ((dictGet_eq_none_iff _ _).mpr (by rw [hent1]; exact hqnotin)), hent1]
    have htail : ps.tail = (ps.take capacity).tail ++ [q] := by
      conv => lhs; rw [hps]
      cases htk : ps.take capacity with
      | nil => rw [htk] at htklen; simp at htklen; omega
      | cons a tl => simp
    rw [htail]
  · intro V c k0 k1 k v0 v1 v rest hent hfull hnodup hk
    have hcap : 1 ≤ c.capacity := by rw [← hfull, hent]; simp
    have hfresh : dictGet c.entries k = none := (dictGet_eq_none_iff _ _).mpr hk
    constructor
    · rw [lru_set_full_fresh c k v hcap hfull hfresh, hent]
      rfl
    · have hget : (LRUMemoryCache.get c (.strKey k0)).2 =
          ⟨c.capacity, ((k1, v1) :: rest) ++ [(k0, v0)]⟩ := by
        rw [LRUMemoryCache.get]
        simp only [ensure_key_type_strKey, hent, dictGet, if_pos rfl, dictRemove]
        rfl
      rw [hget]
      have hfull2 : (((k1, v1) :: rest) ++ [(k0, v0)] :
          List (String × V)).length = c.capacity := by
        rw [← hfull, hent]; simp
      have hfresh2 : dictGet (((k1, v1) :: rest) ++ [(k0, v0)]) k = none := by
        refine (dictGet_eq_none_iff _ _).mpr ?_
        rw [hent] at hk
        simp only [List.map_append, List.map_cons, List.map_nil, List.mem_append,
          List.mem_cons, List.mem_singleton, List.not_mem_nil] at hk ⊢
        tauto
      have := lru_set_full_fresh ⟨c.capacity, ((k1, v1) :: rest) ++ [(k0, v0)]⟩ k v
        hcap hfull2 hfresh2
      rw [this]
      simp
  · intro V c k v hcap hover hfresh
    rw [LRUMemoryCache.set, evictToBelow_eq_drop c.capacity hcap]
    congr 1
    refine dictSet_of_fresh _ _ _ ?_
    refine (dictGet_eq_none_iff _ _).mpr ?_
    intro hmem
    refine (dictGet_eq_none_iff c.entries (ensure_key_type k)).mp hfresh ?_
    simp only [List.mem_map] at hmem ⊢
    obtain ⟨p, hp, hpk⟩ := hmem
    exact ⟨p, List.mem_of_mem_drop hp, hpk⟩

/-- Witness for C3 at capacity 2: inserting `a, b, c` evicts exactly
`a`; on a full `[a, b]` cache, a bare `set c` evicts `a` but `get a`
then `set c` evicts `b` and keeps `a`; an over-full cache drops from the
front until below capacity before inserting. -/
theorem lru_eviction_order_witness :
    (LRUMemoryCache.insertAll (LRUMemoryCache.empty Nat 2)
      [("a", 10), ("b", 20), ("c", 30)]).entries = [("b", 20), ("c", 30)] ∧
    (LRUMemoryCache.set ⟨2, [("a", 10), ("b", 20)]⟩ (.strKey "c") 30).entries =
      [("b", 20), ("c", 30)] ∧
    (LRUMemoryCache.set
      (LRUMemoryCache.get ⟨2, [("a", 10), ("b", 20)]⟩ (.strKey "a")).2
      (.strKey "c") 30).entries = [("a", 10), ("c", 30)] ∧
    (LRUMemoryCache.set ⟨2, [("a", 10), ("b", 20), ("x", 50)]⟩ (.strKey "c") 30).entries =
      [("x", 50), ("c", 30)] :=
  ⟨lru_eviction_order.1 Nat 2 [("a", 10), ("b", 20), ("c", 30)]
      (by decide) (by decide) (by decide),
   (lru_eviction_order.2.1 Nat ⟨2, [("a", 10), ("b", 20)]⟩ "a" "b" "c" 10 20 30 []
      rfl (by decide) (by decide) (by decide)).1,
   (lru_eviction_order.2.1 Nat ⟨2, [("a", 10), ("b", 20)]⟩ "a" "b" "c" 10 20 30 []
      rfl (by decide) (by decide) (by decide)).2,
   lru_eviction_order.2.2 Nat ⟨2, [("a", 10), ("b", 20), ("x", 50)]⟩ (.strKey "c") 30
      (by decide) (by decide) (by decide)⟩

/-! ### Key canonicalization (C7) -/

theorem lru_get_fst {V : Type v} (c : LRUMemoryCache V) (k : KeyType) :
    (LRUMemoryCache.get c k).1 = dictGet c.entries (ensure_key_type k) := by
  rw [LRUMemoryCache.get]
  cases hd : dictGet c.entries (ensure_key_type k) <;> simp [hd]

theorem lru_async_get_fst {V : Type v} (c : LRUAsyncMemoryCache V) (k : KeyType) :
    (LRUAsyncMemoryCache.get c k).1 = dictGet c.entries (ensure_key_type k) := by
  rw [LRUAsyncMemoryCache.get]
  cases hd : dictGet c.entries (ensure_key_type k) <;> simp [hd]

/-- C7: keys are canonicalized through `str()` before every lookup,
store, or delete, so an integer key and the string key that prints the
same address the same slot in every cache variant; in particular
`set(1, v)` then `get("1")` yields `v` and vice versa. -/
theorem cache_key_canonicalization :
    (∀ (V : Type) (c : SimpleMemoryCache V) (n : Int) (v : V),
      SimpleMemoryCache.get c (.intKey n) = SimpleMemoryCache.get c (.strKey (toString n)) ∧
      SimpleMemoryCache.set c (.intKey n) v =
        SimpleMemoryCache.set c (.strKey (toString n)) v ∧
      SimpleMemoryCache.delete c (.intKey n) =
        SimpleMemoryCache.delete c (.strKey (toString n))) ∧
    (∀ (V : Type) (c : LRUMemoryCache V) (n : Int) (v : V),
      LRUMemoryCache.get c (.intKey n) = LRUMemoryCache.get c (.strKey (toString n)) ∧
      LRUMemoryCache.set c (.intKey n) v = LRUMemoryCache.set c (.strKey (toString n)) v ∧
      LRUMemoryCache.delete c (.intKey n) =
        LRUMemoryCache.delete c (.strKey (toString n))) ∧
    (∀ (V : Type) (c : SimpleAsyncMemoryCache V) (n : Int) (v : V),
      SimpleAsyncMemoryCache.get c (.intKey n) =
        SimpleAsyncMemoryCache.get c (.strKey (toString n)) ∧
      SimpleAsyncMemoryCache.set c (.intKey n) v =
        SimpleAsyncMemoryCache.set c (.strKey (toString n)) v ∧
      SimpleAsyncMemoryCache.delete c (.intKey n) =
        SimpleAsyncMemoryCache.delete c (.strKey (toString n))) ∧
    (∀ (V : Type) (c : LRUAsyncMemoryCache V) (n : Int) (v : V),
      LRUAsyncMemoryCache.get c (.intKey n) =
        LRUAsyncMemoryCache.get c (.strKey (toString n)) ∧
      LRUAsyncMemoryCache.set c (.intKey n) v =
        LRUAsyncMemoryCache.set c (.strKey (toString n)) v ∧
      LRUAsyncMemoryCache.delete c (.intKey n) =
        LRUAsyncMemoryCache.delete c (.strKey (toString n))) ∧
    (∀ (V : Type) (c : SimpleMemoryCache V) (v : V),
      SimpleMemoryCache.get (SimpleMemoryCache.set c (.intKey 1) v) (.strKey "1") = some v ∧
      SimpleMemoryCache.get (SimpleMemoryCache.set c (.strKey "1") v) (.intKey 1) = some v) ∧
    (∀ (V : Type) (c : LRUMemoryCache V) (v : V),
      (LRUMemoryCache.get (LRUMemoryCache.set c (.intKey 1) v) (.strKey "1")).1 = some v ∧
      (LRUMemoryCache.get (LRUMemoryCache.set c (.strKey "1") v) (.intKey 1)).1 = some v) ∧
    (∀ (V : Type) (c : SimpleAsyncMemoryCache V) (v : V),
      SimpleAsyncMemoryCache.get
        (SimpleAsyncMemoryCache.set c (.intKey 1) v) (.strKey "1") = some v ∧
      SimpleAsyncMemoryCache.get
        (SimpleAsyncMemoryCache.set c (.strKey "1") v) (.intKey 1) = some v) ∧
    (∀ (V : Type) (c : LRUAsyncMemoryCache V) (v : V),
      (LRUAsyncMemoryCache.get
        (LRUAsyncMemoryCache.set c (.intKey 1) v) (.strKey "1")).1 = some v ∧
      (LRUAsyncMemoryCache.get
        (LRUAsyncMemoryCache.set c (.strKey "1") v) (.intKey 1)).1 = some v) := by
  have hs : toString (1 : Int) = "1" := by decide
  refine ⟨fun V c n v => ⟨rfl, rfl, rfl⟩, fun V c n v => ⟨rfl, rfl, rfl⟩,
    fun V c n v => ⟨rfl, rfl, rfl⟩, fun V c n v => ⟨rfl, rfl, rfl⟩, ?_, ?_, ?_, ?_⟩
  · intro V c v
    constructor <;>
      simp [SimpleMemoryCache.get, SimpleMemoryCache.set, ensure_key_type, hs,
        dictGet_dictSet_self]
  · intro V c v
    constructor <;>
      · rw [lru_get_fst]
        simp [LRUMemoryCache.set, ensure_key_type, hs, dictGet_dictSet_self]
  · intro V c v
    constructor <;>
      simp [SimpleAsyncMemoryCache.get, SimpleAsyncMemoryCache.set, ensure_key_type, hs,
        dictGet_dictSet_self]
  · intro V c v
    constructor <;>
      · rw [lru_async_get_fst]
        simp [LRUAsyncMemoryCache.set, ensure_key_type, hs, dictGet_dictSet_self]

/-! ### Reference semantics of the caches (C4)

To talk about aliasing, cached values are modelled as heap addresses of
mutable objects.  The heap maps addresses (indices) to payloads.
`copy.copy` allocates a fresh address carrying the same payload.
`set` stores the address given by the caller unchanged, in every
variant; only the sync `get` copies. -/

/-- A heap of mutable objects: address `a` holds payload `h.getD a 0`. -/
abbrev Heap := List Nat

/-- Read the payload at an address. -/
def heapRead (h : Heap) (a : Nat) : Nat := h.getD a 0

/-- Mutate the object at an address in place. -/
def heapWrite (h : Heap) (a : Nat) (w : Nat) : Heap := h.set a w

/-- Sync `LRUMemoryCache.get` at the reference level: on a hit the
returned object is `copy.copy` of the stored one — a freshly allocated
address with the same payload. -/
def LRUMemoryCache.getObj (c : LRUMemoryCache Nat) (h : Heap) (key : KeyType) :
    Option Nat × LRUMemoryCache Nat × Heap :=
  match LRUMemoryCache.get c key with
  | (none, c2) => (none, c2, h)
  | (some a, c2) => (some h.length, c2, h ++ [heapRead h a])

/-- Async `LRUAsyncMemoryCache.get` at the reference level: the stored
address itself is returned and the heap is untouched (no copy). -/
def LRUAsyncMemoryCache.getObj (c : LRUAsyncMemoryCache Nat) (h : Heap) (key : KeyType) :
    Option Nat × LRUAsyncMemoryCache Nat × Heap :=
  ((LRUAsyncMemoryCache.get c key).1, (LRUAsyncMemoryCache.get c key).2, h)

/-- The payload a later `get` observes for a key: read the heap at the
address the sync `get` returns (0 for a miss). -/
def observedPayload (c : LRUMemoryCache Nat) (h : Heap) (key : KeyType) : Nat :=
  match LRUMemoryCache.getObj c h key with
  | (none, _, _) => 0
  | (some a, _, h2) => heapRead h2 a

/-- Counterexample to C4 as stated: on the value-copying sync variant
`set` does NOT store a copy — it stores the caller's reference
(`self._cache[key] = value`), so mutating the object that was passed to
`set` changes the cached state observed by a later `get`.  Here the
caller allocates payload 0 at address 0, stores it under `"k"`, then
mutates it to 1: the later `get` observes 1, not 0. -/
theorem memory_cache_copy_counterexample :
    observedPayload
      (LRUMemoryCache.set (LRUMemoryCache.empty Nat 4) (.strKey "k") 0)
      (heapWrite [0] 0 1) (.strKey "k") = 1 ∧
    observedPayload
      (LRUMemoryCache.set (LRUMemoryCache.empty Nat 4) (.strKey "k") 0)
      (heapWrite [0] 0 1) (.strKey "k") ≠ 0 := by
  constructor <;> decide

theorem heapRead_heapWrite_ne (h : Heap) (a b w : Nat) (hne : a ≠ b) :
    heapRead (heapWrite h a w) b = heapRead h b := by
  unfold heapRead heapWrite
  induction h generalizing a b with
  | nil => simp
  | cons x xs ih =>
    cases a with
    | zero =>
      cases b with
      | zero => exact absurd rfl hne
      | succ b2 => simp [List.set]
    | succ a2 =>
      cases b with
      | zero => simp [List.set]
      | succ b2 => simpa [List.set] using ih a2 b2 (fun he => hne (by rw [he]))

theorem lru_get_some_inv {V : Type v} (c : LRUMemoryCache V) (k : KeyType) (a : V)
    (c2 : LRUMemoryCache V) (hg : LRUMemoryCache.get c k = (some a, c2)) :
    dictGet c.entries (ensure_key_type k) = some a ∧
      c2.entries = dictRemove c.entries (ensure_key_type k) ++ [(ensure_key_type k, a)] := by
  rw [LRUMemoryCache.get] at hg
  cases hd : dictGet c.entries (ensure_key_type k) with
  | none => rw [hd] at hg; simp at hg
  | some w =>
    rw [hd] at hg
    simp only [Prod.mk.injEq, Option.some.injEq] at hg
    obtain ⟨h1, h2⟩ := hg
    subst h1
    exact ⟨rfl, by rw [← h2]⟩

/-- C4 as amended: (1) the sync and async LRU variants have identical
key-value and eviction semantics (the async state transformer is the
sync one transported along `toSync`, and `get` returns the same value);
(2) on the sync (value-copying) variant the object returned by `get` is
a fresh copy: mutating it afterwards does not change the payload of any
entry the cache holds; (3) in both variants `set` stores the caller's
reference itself — not a copy — and the async `get` returns the stored
reference itself, so mutations through those aliases are visible in the
cache. -/
theorem memory_cache_aliasing :
    (∀ (V : Type) (c : LRUAsyncMemoryCache V) (k : KeyType) (v : V),
      (LRUAsyncMemoryCache.set c k v).toSync = LRUMemoryCache.set c.toSync k v ∧
      (LRUAsyncMemoryCache.get c k).1 = (LRUMemoryCache.get c.toSync k).1 ∧
      (LRUAsyncMemoryCache.get c k).2.toSync = (LRUMemoryCache.get c.toSync k).2 ∧
      (LRUAsyncMemoryCache.delete c k).toSync = LRUMemoryCache.delete c.toSync k) ∧
    (∀ (c : LRUMemoryCache Nat) (h : Heap) (k : KeyType) (a2 : Nat)
      (c2 : LRUMemoryCache Nat) (h2 : Heap),
      (∀ p ∈ c.entries, p.2 < h.length) →
      LRUMemoryCache.getObj c h k = (some a2, c2, h2) →
      ∀ (w : Nat), ∀ p ∈ c2.entries,
        heapRead (heapWrite h2 a2 w) p.2 = heapRead h2 p.2) ∧
    (∀ (c : LRUMemoryCache Nat) (k : KeyType) (a : Nat),
      dictGet (LRUMemoryCache.set c k a).entries (ensure_key_type k) = some a) ∧
    (∀ (c : LRUAsyncMemoryCache Nat) (k : KeyType) (a : Nat),
      dictGet (LRUAsyncMemoryCache.set c k a).entries (ensure_key_type k) = some a) ∧
    (∀ (c : LRUAsyncMemoryCache Nat) (h : Heap) (k : KeyType),
      (LRUAsyncMemoryCache.getObj c h k).1 = dictGet c.entries (ensure_key_type k) ∧
      (LRUAsyncMemoryCache.getObj c h k).2.2 = h) := by
  refine ⟨?_, ?_, ?_, ?_, ?_⟩
  · intro V c k v
    refine ⟨rfl, ?_, ?_, rfl⟩ <;>
      · simp only [LRUAsyncMemoryCache.get, LRUMemoryCache.get, LRUAsyncMemoryCache.toSync]
        cases dictGet c.entries (ensure_key_type k) <;> rfl
  · intro c h k a2 c2 h2 hwf hobj w p hp
    rw [LRUMemoryCache.getObj] at hobj
    cases hg : LRUMemoryCache.get c k with
    | mk r cg =>
      cases r with
      | none => rw [hg] at hobj; simp at hobj
      | some a =>
        rw [hg] at hobj
        simp only [Prod.mk.injEq, Option.some.injEq] at hobj
        obtain ⟨ha2, hc2, hh2⟩ := hobj
        obtain ⟨hda, hent⟩ := lru_get_some_inv c k a cg hg
        have hmem : p ∈ c.entries := by
          rw [← hc2, hent] at hp
          rcases List.mem_append.mp hp with h1 | h1
          · exact mem_of_mem_dictRemove h1
          · rcases List.mem_singleton.mp h1 with rfl
            exact mem_of_dictGet hda
        have hlt : p.2 < h.length := hwf p hmem
        exact heapRead_heapWrite_ne h2 a2 p.2 w (by omega)
  · intro c k a
    exact dictGet_dictSet_self _ _ _
  · intro c k a
    exact dictGet_dictSet_self _ _ _
  · intro c h k
    exact ⟨lru_async_get_fst c k, rfl⟩

/-- Witness for C4 (amended) at a concrete cache, heap, and key: the
copy returned by the sync `get` can be mutated without changing the
cached entry's payload. -/
theorem memory_cache_aliasing_witness :
    heapRead
      (heapWrite ((LRUMemoryCache.getObj ⟨2, [("k", 0)]⟩ [7] (.strKey "k")).2.2)
        ((LRUMemoryCache.getObj ⟨2, [("k", 0)]⟩ [7] (.strKey "k")).1.getD 99) 5)
      0 = heapRead ((LRUMemoryCache.getObj ⟨2, [("k", 0)]⟩ [7] (.strKey "k")).2.2) 0 :=
  memory_cache_aliasing.2.1 ⟨2, [("k", 0)]⟩ [7] (.strKey "k") 1
    (LRUMemoryCache.getObj ⟨2, [("k", 0)]⟩ [7] (.strKey "k")).2.1
    (LRUMemoryCache.getObj ⟨2, [("k", 0)]⟩ [7] (.strKey "k")).2.2
    (by decide) (by decide) 5 ("k", 0) (by decide)

/-! ### Timestamps

`ognisko.utilities.time` is not part of the sources at hand.
Modelled from the spec: "timestamps are stored as integer epoch
seconds, not a structured date" — a `datetime` is whole seconds plus a
sub-second microsecond part, `into_unix_ts` truncates to epoch seconds
and `from_unix_ts` rebuilds a whole-second datetime. -/

/-- A Python `datetime` value: epoch seconds plus microseconds. -/
structure DT where
  sec : Int
  micro : Nat
deriving DecidableEq

/-- Modelled from the spec: `time_utils.into_unix_ts` — integer epoch
seconds of the datetime (the sub-second part is dropped). -/
def into_unix_ts (t : DT) : Int := t.sec

/-- Modelled from the spec: `time_utils.from_unix_ts` — the whole-second
datetime at the given epoch second. -/
def from_unix_ts (n : Int) : DT := ⟨n, 0⟩

theorem dt_roundtrip (t : DT) (h : t.micro = 0) : from_unix_ts (into_unix_ts t) = t := by
  obtain ⟨s, m⟩ := t
  simp only at h
  subst h
  rfl

/-! ### Level records (`ognisko/resources/level.py`)

Enumerations are modelled by their integer values. -/

/-- `LevelSearchFlag.EPIC = 1 << 0`. -/
def LevelSearchFlag.EPIC : Nat := 1
/-- `LevelSearchFlag.AWARDED = 1 << 1`. -/
def LevelSearchFlag.AWARDED : Nat := 2
/-- `LevelSearchFlag.MAGIC = 1 << 2`. -/
def LevelSearchFlag.MAGIC : Nat := 4
/-- `LevelSearchFlag.LEGENDARY = 1 << 3`. -/
def LevelSearchFlag.LEGENDARY : Nat := 8
/-- `LevelSearchFlag.MYTHICAL = 1 << 4`. -/
def LevelSearchFlag.MYTHICAL : Nat := 16
/-- `LevelPublicity.PUBLIC = 0`. -/
def LevelPublicity.PUBLIC : Nat := 0
/-- `LevelLength.TINY = 0`. -/
def LevelLength.TINY : Nat := 0
/-- `LevelDifficulty.NA = 0`. -/
def LevelDifficulty.NA : Nat := 0

/-- The `Level` database model: one relational row. -/
structure Level where
  id : Nat
  name : String
  user_id : Int
  description : String
  custom_song_id : Option Int
  official_song_id : Option Int
  version : Int
  length : Nat
  two_player : Bool
  publicity : Nat
  render_str : String
  game_version : Int
  binary_version : Int
  upload_ts : DT
  update_ts : DT
  original_id : Option Int
  downloads : Int
  likes : Int
  stars : Int
  difficulty : Nat
  demon_difficulty : Option Nat
  coins : Int
  coins_verified : Bool
  requested_stars : Int
  feature_order : Int
  search_flags : Nat
  low_detail_mode : Bool
  object_count : Int
  building_time : Int
  update_locked : Bool
  song_ids : List Int
  sfx_ids : List Int
  deleted : Bool
deriving DecidableEq

/-- The MeiliSearch document shape for a full level: timestamps as epoch
seconds, the `search_flags` bitmask additionally split into one boolean
per bit (the mask itself is kept — `_make_meili_dict` never deletes the
`search_flags` key). -/
structure MeiliDoc where
  id : Nat
  name : String
  user_id : Int
  description : String
  custom_song_id : Option Int
  official_song_id : Option Int
  version : Int
  length : Nat
  two_player : Bool
  publicity : Nat
  render_str : String
  game_version : Int
  binary_version : Int
  upload_ts : Int
  update_ts : Int
  original_id : Option Int
  downloads : Int
  likes : Int
  stars : Int
  difficulty : Nat
  demon_difficulty : Option Nat
  coins : Int
  coins_verified : Bool
  requested_stars : Int
  feature_order : Int
  search_flags : Nat
  low_detail_mode : Bool
  object_count : Int
  building_time : Int
  update_locked : Bool
  song_ids : List Int
  sfx_ids : List Int
  deleted : Bool
  epic : Bool
  magic : Bool
  awarded : Bool
  legendary : Bool
  mythical : Bool
deriving DecidableEq

/-- `_make_meili_dict` on a full level dump: convert both timestamps to
unix seconds and split the `search_flags` bitmask into per-bit booleans
(`bool(search_flags & FLAG)`). -/
def make_meili_dict (l : Level) : MeiliDoc :=
  { id := l.id
    name := l.name
    user_id := l.user_id
    description := l.description
    custom_song_id := l.custom_song_id
    official_song_id := l.official_song_id
    version := l.version
    length := l.length
    two_player := l.two_player
    publicity := l.publicity
    render_str := l.render_str
    game_version := l.game_version
    binary_version := l.binary_version
    upload_ts := into_unix_ts l.upload_ts
    update_ts := into_unix_ts l.update_ts
    original_id := l.original_id
    downloads := l.downloads
    likes := l.likes
    stars := l.stars
    difficulty := l.difficulty
    demon_difficulty := l.demon_difficulty
    coins := l.coins
    coins_verified := l.coins_verified
    requested_stars := l.requested_stars
    feature_order := l.feature_order
    search_flags := l.search_flags
    low_detail_mode := l.low_detail_mode
    object_count := l.object_count
    building_time := l.building_time
    update_locked := l.update_locked
    song_ids := l.song_ids
    sfx_ids := l.sfx_ids
    deleted := l.deleted
    epic := l.search_flags.testBit 0
    magic := l.search_flags.testBit 2
    awarded := l.search_flags.testBit 1
    legendary := l.search_flags.testBit 3
    mythical := l.search_flags.testBit 4 }

/-- The `search_flags` reassembly of `_from_meili_dict`: start from
`NONE` and OR in each flag whose boolean is set, in source order. -/
def recombineSearchFlags (epic magic awarded legendary mythical : Bool) : Nat :=
  ((((0 ||| (if epic then LevelSearchFlag.EPIC else 0)) |||
      (if magic then LevelSearchFlag.MAGIC else 0)) |||
      (if awarded then LevelSearchFlag.AWARDED else 0)) |||
      (if legendary then LevelSearchFlag.LEGENDARY else 0)) |||
      (if mythical then LevelSearchFlag.MYTHICAL else 0)

/-- `_from_meili_dict` on a full document that already carries
`song_ids` (so the migration branch is not taken): convert the unix
timestamps back to datetimes, recombine the per-bit booleans into
`search_flags`, and delete the boolean keys. -/
def from_meili_dict (d : MeiliDoc) : Level :=
  { id := d.id
    name := d.name
    user_id := d.user_id
    description := d.description
    custom_song_id := d.custom_song_id
    official_song_id := d.official_song_id
    version := d.version
    length := d.length
    two_player := d.two_player
    publicity := d.publicity
    render_str := d.render_str
    game_version := d.game_version
    binary_version := d.binary_version
    upload_ts := from_unix_ts d.upload_ts
    update_ts := from_unix_ts d.update_ts
    original_id := d.original_id
    downloads := d.downloads
    likes := d.likes
    stars := d.stars
    difficulty := d.difficulty
    demon_difficulty := d.demon_difficulty
    coins := d.coins
    coins_verified := d.coins_verified
    requested_stars := d.requested_stars
    feature_order := d.feature_order
    search_flags := recombineSearchFlags d.epic d.magic d.awarded d.legendary d.mythical
    low_detail_mode := d.low_detail_mode
    object_count := d.object_count
    building_time := d.building_time
    update_locked := d.update_locked
    song_ids := d.song_ids
    sfx_ids := d.sfx_ids
    deleted := d.deleted }

theorem recombineSearchFlags_testBit (f : Nat) (h : f < 32) :
    recombineSearchFlags (f.testBit 0) (f.testBit 2) (f.testBit 1)
      (f.testBit 3) (f.testBit 4) = f := by
  revert h
  revert f
  decide

/-- C9: translating a full level dictionary (whole-second timestamps,
`song_ids` present, `search_flags` within the five defined bits) to the
search-document shape and back is the identity. -/
theorem meili_dict_roundtrip (l : Level) (hu : l.upload_ts.micro = 0)
    (hh : l.update_ts.micro = 0) (hf : l.search_flags < 32) :
    from_meili_dict (make_meili_dict l) = l := by
  have h1 := dt_roundtrip l.upload_ts hu
  have h2 := dt_roundtrip l.update_ts hh
  have h3 := recombineSearchFlags_testBit l.search_flags hf
  simp only [from_meili_dict, make_meili_dict, h1, h2, h3]

/-- Witness for C9 at a concrete level: a level named "Cube Rush" with
`search_flags = EPIC | LEGENDARY = 9` and whole-second timestamps
survives the round trip unchanged. -/
theorem meili_dict_roundtrip_witness :
    from_meili_dict (make_meili_dict
      { id := 7, name := "Cube Rush", user_id := 5, description := "", custom_song_id := none,
        official_song_id := some 1, version := 1, length := 2, two_player := false,
        publicity := 0, render_str := "", game_version := 22, binary_version := 34,
        upload_ts := ⟨100, 0⟩, update_ts := ⟨200, 0⟩, original_id := none, downloads := 0,
        likes := 0, stars := 0, difficulty := 0, demon_difficulty := none, coins := 0,
        coins_verified := false, requested_stars := 0, feature_order := 0, search_flags := 9,
        low_detail_mode := false, object_count := 0, building_time := 0,
        update_locked := false, song_ids := [3], sfx_ids := [], deleted := false }) =
      { id := 7, name := "Cube Rush", user_id := 5, description := "", custom_song_id := none,
        official_song_id := some 1, version := 1, length := 2, two_player := false,
        publicity := 0, render_str := "", game_version := 22, binary_version := 34,
        upload_ts := ⟨100, 0⟩, update_ts := ⟨200, 0⟩, original_id := none, downloads := 0,
        likes := 0, stars := 0, difficulty := 0, demon_difficulty := none, coins := 0,
        coins_verified := false, requested_stars := 0, feature_order := 0, search_flags := 9,
        low_detail_mode := false, object_count := 0, building_time := 0,
        update_locked := false, song_ids := [3], sfx_ids := [], deleted := false } :=
  meili_dict_roundtrip _ (by decide) (by decide) (by decide)

/-! ### The level repository (`LevelRepository`)

State: the `levels` table (rows in insertion order, with the
AUTO_INCREMENT counter `next_id`) and the `levels` MeiliSearch index
(a list of documents). -/

structure LevelRepositoryState where
  levels : List Level
  next_id : Nat
  meili : List MeiliDoc
deriving DecidableEq

/-- `fetch_one` of a `SELECT ... WHERE id = :level_id`: the first row
with the given id. -/
def fetchFirst : List Level → Nat → Option Level
  | [], _ => none
  | l :: rest, level_id => if l.id == level_id then some l else fetchFirst rest level_id

/-- The keyword arguments of `LevelRepository.create`, with the Python
defaults. -/
structure LevelCreateParams where
  name : String
  user_id : Int
  description : String := ""
  custom_song_id : Option Int := none
  official_song_id : Option Int := some 1
  version : Int := 1
  length : Nat := LevelLength.TINY
  two_player : Bool := false
  publicity : Nat := LevelPublicity.PUBLIC
  render_str : String := ""
  game_version : Int := 22
  binary_version : Int := 34
  upload_ts : Option DT := none
  update_ts : Option DT := none
  original_id : Option Int := none
  downloads : Int := 0
  likes : Int := 0
  stars : Int := 0
  difficulty : Nat := LevelDifficulty.NA
  demon_difficulty : Option Nat := none
  coins : Int := 0
  coins_verified : Bool := false
  requested_stars : Int := 0
  feature_order : Int := 0
  search_flags : Nat := 0
  low_detail_mode : Bool := false
  object_count : Int := 0
  building_time : Int := 0
  update_locked : Bool := false
  song_ids : Option (List Int) := none
  sfx_ids : Option (List Int) := none
  deleted : Bool := false
  level_id : Option Nat := none
deriving DecidableEq

/-- `LevelRepository.create`: default the timestamps to `now` and the
id lists to `[]` when absent, INSERT the row (the store assigns
`next_id` when no explicit `level_id` is passed; the INSERT's returned
last-insert id becomes the record's id), then mirror the full document
into the search index with `add_documents`, and return the hydrated
record. -/
def LevelRepositoryState.create (st : LevelRepositoryState) (p : LevelCreateParams)
    (now : DT) : Level × LevelRepositoryState :=
  let upload_ts := p.upload_ts.getD now
  let update_ts := p.update_ts.getD now
  let song_ids := p.song_ids.getD []
  let sfx_ids := p.sfx_ids.getD []
  let assigned := p.level_id.getD st.next_id
  let level : Level :=
    { id := assigned
      name := p.name
      user_id := p.user_id
      description := p.description
      custom_song_id := p.custom_song_id
      official_song_id := p.official_song_id
      version := p.version
      length := p.length
      two_player := p.two_player
      publicity := p.publicity
      render_str := p.render_str
      game_version := p.game_version
      binary_version := p.binary_version
      upload_ts := upload_ts
      update_ts := update_ts
      original_id := p.original_id
      downloads := p.downloads
      likes := p.likes
      stars := p.stars
      difficulty := p.difficulty
      demon_difficulty := p.demon_difficulty
      coins := p.coins
      coins_verified := p.coins_verified
      requested_stars := p.requested_stars
      feature_order := p.feature_order
      search_flags := p.search_flags
      low_detail_mode := p.low_detail_mode
      object_count := p.object_count
      building_time := p.building_time
      update_locked := p.update_locked
      song_ids := song_ids
      sfx_ids := sfx_ids
      deleted := p.deleted }
  (level,
    { levels := st.levels ++ [level]
      next_id := max st.next_id (assigned + 1)
      meili := st.meili ++ [make_meili_dict level] })

/-- `LevelRepository.from_id`: fetch the row with the given id (no
soft-delete filter on this read). -/
def LevelRepositoryState.from_id (st : LevelRepositoryState) (level_id : Nat) : Option Level :=
  fetchFirst st.levels level_id

/-- The ids already in the table are below the AUTO_INCREMENT counter. -/
def LevelRepositoryState.wf (st : LevelRepositoryState) : Prop :=
  ∀ l ∈ st.levels, l.id < st.next_id

theorem fetchFirst_append_new (ls : List Level) (x : Level) (n : Nat)
    (h : ∀ l ∈ ls, l.id ≠ n) :
    fetchFirst (ls ++ [x]) n = if x.id == n then some x else none := by
  induction ls with
  | nil => rfl
  | cons a rest ih =>
    have ha : (a.id == n) = false := by
      have := h a (List.mem_cons_self _ _)
      simpa using this
    have hrest := ih (fun l hl => h l (List.mem_cons_of_mem _ hl))
    simpa [fetchFirst, ha] using hrest

/-- C1: `create` with no explicit `level_id` assigns the
store-generated id to the returned record, appends the row to the
relational store, mirrors the full document into the search index, and
`from_id` of the new id returns a record equal to the one `create`
returned — with the timestamps defaulted to `now` when absent and the
`deleted` flag carried over from its `False` default. -/
theorem level_create_roundtrip (st : LevelRepositoryState) (p : LevelCreateParams) (now : DT)
    (hid : p.level_id = none) (hwf : st.wf) :
    (LevelRepositoryState.create st p now).1.id = st.next_id ∧
    (LevelRepositoryState.create st p now).2.levels =
      st.levels ++ [(LevelRepositoryState.create st p now).1] ∧
    (LevelRepositoryState.create st p now).2.meili =
      st.meili ++ [make_meili_dict (LevelRepositoryState.create st p now).1] ∧
    LevelRepositoryState.from_id (LevelRepositoryState.create st p now).2
      (LevelRepositoryState.create st p now).1.id =
      some (LevelRepositoryState.create st p now).1 ∧
    (p.upload_ts = none → (LevelRepositoryState.create st p now).1.upload_ts = now) ∧
    (p.update_ts = none → (LevelRepositoryState.create st p now).1.update_ts = now) ∧
    (LevelRepositoryState.create st p now).1.deleted = p.deleted := by
  have hids : (LevelRepositoryState.create st p now).1.id = st.next_id := by
    simp [LevelRepositoryState.create, hid]
  refine ⟨hids, rfl, rfl, ?_, ?_, ?_, rfl⟩
  · rw [LevelRepositoryState.from_id,
      show (LevelRepositoryState.create st p now).2.levels =
        st.levels ++ [(LevelRepositoryState.create st p now).1] from rfl,
      fetchFirst_append_new st.levels _ _ (fun l hl => by
        have := hwf l hl
        rw [hids]
        omega)]
    simp
  · intro h
    simp [LevelRepositoryState.create, h]
  · intro h
    simp [LevelRepositoryState.create, h]

/-- Witness for C1: creating "Cube Rush" for user 5 in a store whose
counter is at 1 assigns id 1, mirrors the document, and round-trips
through `from_id`. -/
theorem level_create_roundtrip_witness :
    (LevelRepositoryState.create ⟨[], 1, []⟩ { name := "Cube Rush", user_id := 5 }
      ⟨100, 0⟩).1.id = 1 ∧
    (LevelRepositoryState.create ⟨[], 1, []⟩ { name := "Cube Rush", user_id := 5 }
      ⟨100, 0⟩).2.levels = [] ++ [(LevelRepositoryState.create ⟨[], 1, []⟩
        { name := "Cube Rush", user_id := 5 } ⟨100, 0⟩).1] ∧
    (LevelRepositoryState.create ⟨[], 1, []⟩ { name := "Cube Rush", user_id := 5 }
      ⟨100, 0⟩).2.meili = [] ++ [make_meili_dict (LevelRepositoryState.create ⟨[], 1, []⟩
        { name := "Cube Rush", user_id := 5 } ⟨100, 0⟩).1] ∧
    LevelRepositoryState.from_id
      (LevelRepositoryState.create ⟨[], 1, []⟩ { name := "Cube Rush", user_id := 5 }
        ⟨100, 0⟩).2
      (LevelRepositoryState.create ⟨[], 1, []⟩ { name := "Cube Rush", user_id := 5 }
        ⟨100, 0⟩).1.id =
      some (LevelRepositoryState.create ⟨[], 1, []⟩ { name := "Cube Rush", user_id := 5 }
        ⟨100, 0⟩).1 ∧
    ((none : Option DT) = none → (LevelRepositoryState.create ⟨[], 1, []⟩
      { name := "Cube Rush", user_id := 5 } ⟨100, 0⟩).1.upload_ts = ⟨100, 0⟩) ∧
    ((none : Option DT) = none → (LevelRepositoryState.create ⟨[], 1, []⟩
      { name := "Cube Rush", user_id := 5 } ⟨100, 0⟩).1.update_ts = ⟨100, 0⟩) ∧
    (LevelRepositoryState.create ⟨[], 1, []⟩ { name := "Cube Rush", user_id := 5 }
      ⟨100, 0⟩).1.deleted = false :=
  level_create_roundtrip ⟨[], 1, []⟩ { name := "Cube Rush", user_id := 5 } ⟨100, 0⟩
    rfl (fun l hl => by simp at hl)

/-! ### Partial updates (C2)

`_LevelUpdatePartial` is a TypedDict whose keys are all optional: a
`some` field is supplied, a `none` field is omitted from the UPDATE and
from the mirrored document. -/

/-- The keyword arguments of `LevelRepository.update_partial`. -/
structure LevelUpdatePartial where
  name : Option (String) := none
  user_id : Option (Int) := none
  description : Option (String) := none
  custom_song_id : Option (Option Int) := none
  official_song_id : Option (Option Int) := none
  version : Option (Int) := none
  length : Option (Nat) := none
  two_player : Option (Bool) := none
  publicity : Option (Nat) := none
  render_str : Option (String) := none
  game_version : Option (Int) := none
  binary_version : Option (Int) := none
  upload_ts : Option (DT) := none
  update_ts : Option (DT) := none
  original_id : Option (Option Int) := none
  downloads : Option (Int) := none
  likes : Option (Int) := none
  stars : Option (Int) := none
  difficulty : Option (Nat) := none
  demon_difficulty : Option (Option Nat) := none
  coins : Option (Int) := none
  coins_verified : Option (Bool) := none
  requested_stars : Option (Int) := none
  feature_order : Option (Int) := none
  search_flags : Option (Nat) := none
  low_detail_mode : Option (Bool) := none
  object_count : Option (Int) := none
  building_time : Option (Int) := none
  update_locked : Option (Bool) := none
  song_ids : Option (List Int) := none
  sfx_ids : Option (List Int) := none
  deleted : Option (Bool) := none
deriving DecidableEq

/-- The effect of `UPDATE levels SET f = :f, ... WHERE id = :id` on one
row: exactly the supplied fields are overwritten. -/
def applyLevelUpdate (p : LevelUpdatePartial) (l : Level) : Level :=
  { id := l.id
    name := p.name.getD l.name
    user_id := p.user_id.getD l.user_id
    description := p.description.getD l.description
    custom_song_id := p.custom_song_id.getD l.custom_song_id
    official_song_id := p.official_song_id.getD l.official_song_id
    version := p.version.getD l.version
    length := p.length.getD l.length
    two_player := p.two_player.getD l.two_player
    publicity := p.publicity.getD l.publicity
    render_str := p.render_str.getD l.render_str
    game_version := p.game_version.getD l.game_version
    binary_version := p.binary_version.getD l.binary_version
    upload_ts := p.upload_ts.getD l.upload_ts
    update_ts := p.update_ts.getD l.update_ts
    original_id := p.original_id.getD l.original_id
    downloads := p.downloads.getD l.downloads
    likes := p.likes.getD l.likes
    stars := p.stars.getD l.stars
    difficulty := p.difficulty.getD l.difficulty
    demon_difficulty := p.demon_difficulty.getD l.demon_difficulty
    coins := p.coins.getD l.coins
    coins_verified := p.coins_verified.getD l.coins_verified
    requested_stars := p.requested_stars.getD l.requested_stars
    feature_order := p.feature_order.getD l.feature_order
    search_flags := p.search_flags.getD l.search_flags
    low_detail_mode := p.low_detail_mode.getD l.low_detail_mode
    object_count := p.object_count.getD l.object_count
    building_time := p.building_time.getD l.building_time
    update_locked := p.update_locked.getD l.update_locked
    song_ids := p.song_ids.getD l.song_ids
    sfx_ids := p.sfx_ids.getD l.sfx_ids
    deleted := p.deleted.getD l.deleted }

/-- A partial MeiliSearch document as produced by `_make_meili_dict`
on the changed-fields dict: only supplied keys are present; a supplied
`search_flags` key additionally materializes the five per-bit boolean
keys; supplied timestamps are converted to epoch seconds. -/
structure MeiliDocPartial where
  id : Nat
  name : Option (String) := none
  user_id : Option (Int) := none
  description : Option (String) := none
  custom_song_id : Option (Option Int) := none
  official_song_id : Option (Option Int) := none
  version : Option (Int) := none
  length : Option (Nat) := none
  two_player : Option (Bool) := none
  publicity : Option (Nat) := none
  render_str : Option (String) := none
  game_version : Option (Int) := none
  binary_version : Option (Int) := none
  upload_ts : Option Int := none
  update_ts : Option Int := none
  original_id : Option (Option Int) := none
  downloads : Option (Int) := none
  likes : Option (Int) := none
  stars : Option (Int) := none
  difficulty : Option (Nat) := none
  demon_difficulty : Option (Option Nat) := none
  coins : Option (Int) := none
  coins_verified : Option (Bool) := none
  requested_stars : Option (Int) := none
  feature_order : Option (Int) := none
  search_flags : Option (Nat) := none
  low_detail_mode : Option (Bool) := none
  object_count : Option (Int) := none
  building_time : Option (Int) := none
  update_locked : Option (Bool) := none
  song_ids : Option (List Int) := none
  sfx_ids : Option (List Int) := none
  deleted : Option (Bool) := none
  epic : Option Bool := none
  magic : Option Bool := none
  awarded : Option Bool := none
  legendary : Option Bool := none
  mythical : Option Bool := none
deriving DecidableEq

/-- `_make_meili_dict` applied to the changed-fields dict of
`update_partial` (after `changed_fields["id"] = level_id`): keys that
were not supplied stay absent. -/
def make_meili_partial_dict (level_id : Nat) (p : LevelUpdatePartial) : MeiliDocPartial :=
  { id := level_id
    name := p.name
    user_id := p.user_id
    description := p.description
    custom_song_id := p.custom_song_id
    official_song_id := p.official_song_id
    version := p.version
    length := p.length
    two_player := p.two_player
    publicity := p.publicity
    render_str := p.render_str
    game_version := p.game_version
    binary_version := p.binary_version
    upload_ts := p.upload_ts.map into_unix_ts
    update_ts := p.update_ts.map into_unix_ts
    original_id := p.original_id
    downloads := p.downloads
    likes := p.likes
    stars := p.stars
    difficulty := p.difficulty
    demon_difficulty := p.demon_difficulty
    coins := p.coins
    coins_verified := p.coins_verified
    requested_stars := p.requested_stars
    feature_order := p.feature_order
    search_flags := p.search_flags
    low_detail_mode := p.low_detail_mode
    object_count := p.object_count
    building_time := p.building_time
    update_locked := p.update_locked
    song_ids := p.song_ids
    sfx_ids := p.sfx_ids
    deleted := p.deleted
    epic := p.search_flags.map (fun f => f.testBit 0)
    magic := p.search_flags.map (fun f => f.testBit 2)
    awarded := p.search_flags.map (fun f => f.testBit 1)
    legendary := p.search_flags.map (fun f => f.testBit 3)
    mythical := p.search_flags.map (fun f => f.testBit 4) }

/-- `update_documents` merging one partial document into a full one:
supplied keys overwrite, absent keys keep the stored value. -/
def mergeMeili (d : MeiliDoc) (p : MeiliDocPartial) : MeiliDoc :=
  { id := d.id
    name := p.name.getD d.name
    user_id := p.user_id.getD d.user_id
    description := p.description.getD d.description
    custom_song_id := p.custom_song_id.getD d.custom_song_id
    official_song_id := p.official_song_id.getD d.official_song_id
    version := p.version.getD d.version
    length := p.length.getD d.length
    two_player := p.two_player.getD d.two_player
    publicity := p.publicity.getD d.publicity
    render_str := p.render_str.getD d.render_str
    game_version := p.game_version.getD d.game_version
    binary_version := p.binary_version.getD d.binary_version
    upload_ts := p.upload_ts.getD d.upload_ts
    update_ts := p.update_ts.getD d.update_ts
    original_id := p.original_id.getD d.original_id
    downloads := p.downloads.getD d.downloads
    likes := p.likes.getD d.likes
    stars := p.stars.getD d.stars
    difficulty := p.difficulty.getD d.difficulty
    demon_difficulty := p.demon_difficulty.getD d.demon_difficulty
    coins := p.coins.getD d.coins
    coins_verified := p.coins_verified.getD d.coins_verified
    requested_stars := p.requested_stars.getD d.requested_stars
    feature_order := p.feature_order.getD d.feature_order
    search_flags := p.search_flags.getD d.search_flags
    low_detail_mode := p.low_detail_mode.getD d.low_detail_mode
    object_count := p.object_count.getD d.object_count
    building_time := p.building_time.getD d.building_time
    update_locked := p.update_locked.getD d.update_locked
    song_ids := p.song_ids.getD d.song_ids
    sfx_ids := p.sfx_ids.getD d.sfx_ids
    deleted := p.deleted.getD d.deleted
    epic := p.epic.getD d.epic
    magic := p.magic.getD d.magic
    awarded := p.awarded.getD d.awarded
    legendary := p.legendary.getD d.legendary
    mythical := p.mythical.getD d.mythical }

/-- `update_documents([partial])` on the index: merge into the document
with the same primary key (a missing document would be created by Meili;
that divergence state is outside the repository's reachable states and
is modelled as a no-op). -/
def meiliUpdateDocs (docs : List MeiliDoc) (p : MeiliDocPartial) : List MeiliDoc :=
  docs.map (fun d => if d.id == p.id then mergeMeili d p else d)

/-- MySQL affected-row count of the UPDATE: rows matching the id whose
content actually changes (MySQL reports changed rows, not matched
rows). -/
def levelChangedRows (ls : List Level) (level_id : Nat) (p : LevelUpdatePartial) : Nat :=
  (ls.filter (fun l => l.id == level_id && !(applyLevelUpdate p l == l))).length

/-- `LevelRepository.update_partial`: run the UPDATE; if it affected no
rows return `None` (no mirror write); otherwise push the changed subset
(plus the id) through `_make_meili_dict` into `update_documents` and
return the refreshed record via `from_id`. -/
def LevelRepositoryState.update_partial (st : LevelRepositoryState) (level_id : Nat)
    (p : LevelUpdatePartial) : Option Level × LevelRepositoryState :=
  let levels2 := st.levels.map (fun l => if l.id == level_id then applyLevelUpdate p l else l)
  if levelChangedRows st.levels level_id p = 0 then
    (none, { st with levels := levels2 })
  else
    let st2 : LevelRepositoryState :=
      { levels := levels2
        next_id := st.next_id
        meili := meiliUpdateDocs st.meili (make_meili_partial_dict level_id p) }
    (LevelRepositoryState.from_id st2 level_id, st2)

/-- Field-wise reading of "writes only the supplied fields": an omitted
field keeps the stored value, a supplied field takes the supplied
value. -/
def partialPreserves (p : LevelUpdatePartial) (l l2 : Level) : Prop :=
  l2.id = l.id ∧
  (p.name = none → l2.name = l.name) ∧ (∀ w, p.name = some w → l2.name = w) ∧
  (p.user_id = none → l2.user_id = l.user_id) ∧ (∀ w, p.user_id = some w → l2.user_id = w) ∧
  (p.description = none → l2.description = l.description) ∧ (∀ w, p.description = some w → l2.description = w) ∧
  (p.custom_song_id = none → l2.custom_song_id = l.custom_song_id) ∧ (∀ w, p.custom_song_id = some w → l2.custom_song_id = w) ∧
  (p.official_song_id = none → l2.official_song_id = l.official_song_id) ∧ (∀ w, p.official_song_id = some w → l2.official_song_id = w) ∧
  (p.version = none → l2.version = l.version) ∧ (∀ w, p.version = some w → l2.version = w) ∧
  (p.length = none → l2.length = l.length) ∧ (∀ w, p.length = some w → l2.length = w) ∧
  (p.two_player = none → l2.two_player = l.two_player) ∧ (∀ w, p.two_player = some w → l2.two_player = w) ∧
  (p.publicity = none → l2.publicity = l.publicity) ∧ (∀ w, p.publicity = some w → l2.publicity = w) ∧
  (p.render_str = none → l2.render_str = l.render_str) ∧ (∀ w, p.render_str = some w → l2.render_str = w) ∧
  (p.game_version = none → l2.game_version = l.game_version) ∧ (∀ w, p.game_version = some w → l2.game_version = w) ∧
  (p.binary_version = none → l2.binary_version = l.binary_version) ∧ (∀ w, p.binary_version = some w → l2.binary_version = w) ∧
  (p.upload_ts = none → l2.upload_ts = l.upload_ts) ∧ (∀ w, p.upload_ts = some w → l2.upload_ts = w) ∧
  (p.update_ts = none → l2.update_ts = l.update_ts) ∧ (∀ w, p.update_ts = some w → l2.update_ts = w) ∧
  (p.original_id = none → l2.original_id = l.original_id) ∧ (∀ w, p.original_id = some w → l2.original_id = w) ∧
  (p.downloads = none → l2.downloads = l.downloads) ∧ (∀ w, p.downloads = some w → l2.downloads = w) ∧
  (p.likes = none → l2.likes = l.likes) ∧ (∀ w, p.likes = some w → l2.likes = w) ∧
  (p.stars = none → l2.stars = l.stars) ∧ (∀ w, p.stars = some w → l2.stars = w) ∧
  (p.difficulty = none → l2.difficulty = l.difficulty) ∧ (∀ w, p.difficulty = some w → l2.difficulty = w) ∧
  (p.demon_difficulty = none → l2.demon_difficulty = l.demon_difficulty) ∧ (∀ w, p.demon_difficulty = some w → l2.demon_difficulty = w) ∧
  (p.coins = none → l2.coins = l.coins) ∧ (∀ w, p.coins = some w → l2.coins = w) ∧
  (p.coins_verified = none → l2.coins_verified = l.coins_verified) ∧ (∀ w, p.coins_verified = some w → l2.coins_verified = w) ∧
  (p.requested_stars = none → l2.requested_stars = l.requested_stars) ∧ (∀ w, p.requested_stars = some w → l2.requested_stars = w) ∧
  (p.feature_order = none → l2.feature_order = l.feature_order) ∧ (∀ w, p.feature_order = some w → l2.feature_order = w) ∧
  (p.search_flags = none → l2.search_flags = l.search_flags) ∧ (∀ w, p.search_flags = some w → l2.search_flags = w) ∧
  (p.low_detail_mode = none → l2.low_detail_mode = l.low_detail_mode) ∧ (∀ w, p.low_detail_mode = some w → l2.low_detail_mode = w) ∧
  (p.object_count = none → l2.object_count = l.object_count) ∧ (∀ w, p.object_count = some w → l2.object_count = w) ∧
  (p.building_time = none → l2.building_time = l.building_time) ∧ (∀ w, p.building_time = some w → l2.building_time = w) ∧
  (p.update_locked = none → l2.update_locked = l.update_locked) ∧ (∀ w, p.update_locked = some w → l2.update_locked = w) ∧
  (p.song_ids = none → l2.song_ids = l.song_ids) ∧ (∀ w, p.song_ids = some w → l2.song_ids = w) ∧
  (p.sfx_ids = none → l2.sfx_ids = l.sfx_ids) ∧ (∀ w, p.sfx_ids = some w → l2.sfx_ids = w) ∧
  (p.deleted = none → l2.deleted = l.deleted) ∧ (∀ w, p.deleted = some w → l2.deleted = w)


/-! ### The user-relationship repository
(`rgdps/repositories/user_relationship.py`)

The `UserRelationship` model itself is not among the sources; its
fields are those the repository reads and writes (`id`,
`relationship_type`, `user_id`, `target_user_id`, `post_ts`, `seen_ts`
plus the `deleted` soft-delete column used by every read). -/

structure UserRelationship where
  id : Nat
  relationship_type : Nat
  user_id : Int
  target_user_id : Int
  post_ts : DT
  seen_ts : Option DT
  deleted : Bool
deriving DecidableEq

/-- `_UserRelationshipUpdatePartial`: `seen_ts` and `deleted`, both
optional. -/
structure UserRelationshipUpdate where
  seen_ts : Option DT := none
  deleted : Option Bool := none
deriving DecidableEq

/-- Effect of the generated `UPDATE user_relationships SET ...` on one
row. -/
def applyRelUpdate (p : UserRelationshipUpdate) (r : UserRelationship) : UserRelationship :=
  { r with
    seen_ts := match p.seen_ts with
      | some t => some t
      | none => r.seen_ts
    deleted := p.deleted.getD r.deleted }

/-- `from_id`: first row with the id, filtered by `deleted = 0` unless
`include_deleted` is set. -/
def userRelFromId (rels : List UserRelationship) (relationship_id : Nat)
    (include_deleted : Bool) : Option UserRelationship :=
  rels.find? (fun r => r.id == relationship_id && (include_deleted || !r.deleted))

/-- MySQL affected-row count of the relationship UPDATE (changed rows). -/
def relChangedRows (rels : List UserRelationship) (relationship_id : Nat)
    (p : UserRelationshipUpdate) : Nat :=
  (rels.filter (fun r => r.id == relationship_id && !(applyRelUpdate p r == r))).length

/-- `user_relationship.update_partial`: run the UPDATE, ignore the
affected-row count entirely, and return
`from_id(..., include_deleted=True)`; there is no search mirror for
relationships. -/
def UserRelationshipTable.update_partial (rels : List UserRelationship)
    (relationship_id : Nat) (p : UserRelationshipUpdate) :
    Option UserRelationship × List UserRelationship :=
  let rels2 := rels.map (fun r =>
    if r.id == relationship_id then applyRelUpdate p r else r)
  (userRelFromId rels2 relationship_id true, rels2)

/-- Counterexample to C2 as stated: in the user-relationship
repository, an update that re-writes `seen_ts` with its current value
affects zero rows, yet `update_partial` returns the (present) record
instead of an absent result — it never inspects the affected-row
count. -/
theorem rel_update_zero_affected_counterexample :
    relChangedRows [⟨1, 0, 2, 3, ⟨0, 0⟩, some ⟨5, 0⟩, false⟩] 1
      { seen_ts := some ⟨5, 0⟩ } = 0 ∧
    ( UserRelationshipTable.update_partial [⟨1, 0, 2, 3, ⟨0, 0⟩, some ⟨5, 0⟩, false⟩] 1
      { seen_ts := some ⟨5, 0⟩ }).1 = some ⟨1, 0, 2, 3, ⟨0, 0⟩, some ⟨5, 0⟩, false⟩ := by
  constructor <;> decide

/-- C2 as amended: in the level repository, `update_partial` writes
only the supplied fields, returns an absent result with no mirror write
when the UPDATE affected zero rows, and otherwise mirrors exactly the
changed subset and returns the refreshed record; the user-relationship
`update_partial`, by contrast, ignores the affected-row count and
returns the row re-read with deleted records included (absent only when
the id does not exist), with no search-mirror write at all. -/
theorem update_partial_semantics :
    (∀ (p : LevelUpdatePartial) (l : Level),
      partialPreserves p l (applyLevelUpdate p l)) ∧
    (∀ (st : LevelRepositoryState) (level_id : Nat) (p : LevelUpdatePartial),
      levelChangedRows st.levels level_id p = 0 →
      ( LevelRepositoryState.update_partial st level_id p).1 = none ∧
      ( LevelRepositoryState.update_partial st level_id p).2.meili = st.meili ∧
      ( LevelRepositoryState.update_partial st level_id p).2.levels = st.levels.map
        (fun l => if l.id == level_id then applyLevelUpdate p l else l)) ∧
    (∀ (st : LevelRepositoryState) (level_id : Nat) (p : LevelUpdatePartial),
      levelChangedRows st.levels level_id p ≠ 0 →
      ( LevelRepositoryState.update_partial st level_id p).2.meili =
        meiliUpdateDocs st.meili (make_meili_partial_dict level_id p) ∧
      ( LevelRepositoryState.update_partial st level_id p).1 =
        LevelRepositoryState.from_id
          ( LevelRepositoryState.update_partial st level_id p).2 level_id ∧
      ( LevelRepositoryState.update_partial st level_id p).2.levels = st.levels.map
        (fun l => if l.id == level_id then applyLevelUpdate p l else l)) ∧
    (∀ (rels : List UserRelationship) (relationship_id : Nat)
      (p : UserRelationshipUpdate),
      ( UserRelationshipTable.update_partial rels relationship_id p).1 =
        userRelFromId
          ( UserRelationshipTable.update_partial rels relationship_id p).2
          relationship_id true) := by
  refine ⟨?_, ?_, ?_, ?_⟩
  · intro p l
    unfold partialPreserves applyLevelUpdate
    repeat' apply And.intro
    all_goals intros
    all_goals simp_all
  · intro st level_id p h0
    refine ⟨?_, ?_, ?_⟩ <;>
      simp [ LevelRepositoryState.update_partial, h0]
  · intro st level_id p h1
    refine ⟨?_, ?_, ?_⟩ <;>
      simp [ LevelRepositoryState.update_partial, h1]
  · intro rels relationship_id p
    rfl

/-- A concrete level used by several witnesses. -/
def sampleLevel : Level :=
  { id := 7, name := "Cube Rush", user_id := 5, description := "", custom_song_id := none,
    official_song_id := some 1, version := 1, length := 2, two_player := false,
    publicity := 0, render_str := "", game_version := 22, binary_version := 34,
    upload_ts := ⟨100, 0⟩, update_ts := ⟨200, 0⟩, original_id := none, downloads := 0,
    likes := 0, stars := 0, difficulty := 0, demon_difficulty := none, coins := 0,
    coins_verified := false, requested_stars := 0, feature_order := 0, search_flags := 0,
    low_detail_mode := false, object_count := 0, building_time := 0,
    update_locked := false, song_ids := [3], sfx_ids := [], deleted := false }

/-- Witness for C2 (amended): on a one-row store, the empty delta
affects zero rows (absent result, mirror untouched), a `stars := 5`
delta mirrors the changed subset and returns the refreshed record, and
the relationship update returns the deleted-inclusive re-read. -/
theorem update_partial_semantics_witness :
    partialPreserves { stars := some 5 } sampleLevel
      (applyLevelUpdate { stars := some 5 } sampleLevel) ∧
    (( LevelRepositoryState.update_partial
        ⟨[sampleLevel], 8, [make_meili_dict sampleLevel]⟩ 7 {}).1 = none ∧
      ( LevelRepositoryState.update_partial
        ⟨[sampleLevel], 8, [make_meili_dict sampleLevel]⟩ 7 {}).2.meili =
        [make_meili_dict sampleLevel] ∧
      ( LevelRepositoryState.update_partial
        ⟨[sampleLevel], 8, [make_meili_dict sampleLevel]⟩ 7 {}).2.levels =
        [sampleLevel].map (fun l => if l.id == 7 then applyLevelUpdate {} l else l)) ∧
    (( LevelRepositoryState.update_partial
        ⟨[sampleLevel], 8, [make_meili_dict sampleLevel]⟩ 7 { stars := some 5 }).2.meili =
        meiliUpdateDocs [make_meili_dict sampleLevel]
          (make_meili_partial_dict 7 { stars := some 5 }) ∧
      ( LevelRepositoryState.update_partial
        ⟨[sampleLevel], 8, [make_meili_dict sampleLevel]⟩ 7 { stars := some 5 }).1 =
        LevelRepositoryState.from_id
          ( LevelRepositoryState.update_partial
            ⟨[sampleLevel], 8, [make_meili_dict sampleLevel]⟩ 7 { stars := some 5 }).2 7 ∧
      ( LevelRepositoryState.update_partial
        ⟨[sampleLevel], 8, [make_meili_dict sampleLevel]⟩ 7 { stars := some 5 }).2.levels =
        [sampleLevel].map
          (fun l => if l.id == 7 then applyLevelUpdate { stars := some 5 } l else l)) ∧
    ( UserRelationshipTable.update_partial
        [⟨1, 0, 2, 3, ⟨0, 0⟩, some ⟨5, 0⟩, false⟩] 1 { deleted := some true }).1 =
      userRelFromId
        ( UserRelationshipTable.update_partial
          [⟨1, 0, 2, 3, ⟨0, 0⟩, some ⟨5, 0⟩, false⟩] 1 { deleted := some true }).2 1 true :=
  ⟨update_partial_semantics.1 { stars := some 5 } sampleLevel,
   update_partial_semantics.2.1 ⟨[sampleLevel], 8, [make_meili_dict sampleLevel]⟩ 7 {}
     (by decide),
   update_partial_semantics.2.2.1 ⟨[sampleLevel], 8, [make_meili_dict sampleLevel]⟩ 7
     { stars := some 5 } (by decide),
   update_partial_semantics.2.2.2
     [⟨1, 0, 2, 3, ⟨0, 0⟩, some ⟨5, 0⟩, false⟩] 1 { deleted := some true }⟩

/-! ### Search and iteration (C5)

`LevelRepository.search` always places `deleted = 0` and
`publicity = 0` in the Meili filter list; the optional arguments append
further clauses, all joined with AND.  The model interprets the filter
expression over the documents of the index; free-text matching of the
`query` string is not modelled (the claims concern filtering only), and
`estimated_total_hits` is the filtered count. -/

inductive OrderBy where
  | downloads
  | likes
  | stars
deriving DecidableEq

/-- The keyword arguments of `LevelRepository.search` with their
defaults. -/
structure LevelSearchParams where
  page : Nat := 0
  page_size : Nat := 10
  required_lengths : Option (List Nat) := none
  required_difficulties : Option (List Nat) := none
  required_demon_difficulties : Option (List Nat) := none
  song_id : Option Int := none
  custom_song_id : Option Int := none
  rated_only : Option Bool := none
  two_player_only : Option Bool := none
  excluded_user_ids : Option (List Int) := none
  required_user_ids : Option (List Int) := none
  required_level_ids : Option (List Nat) := none
  excluded_level_ids : Option (List Nat) := none
  order_by : OrderBy := .downloads
deriving DecidableEq

/-- The AND of all filter clauses `search` builds, evaluated at one
document. -/
def searchFilter (p : LevelSearchParams) (d : MeiliDoc) : Bool :=
  (d.deleted == false) &&
  ((d.publicity == LevelPublicity.PUBLIC) &&
  ((match p.required_lengths with
    | none => true
    | some ls => ls.contains d.length) &&
  ((match p.required_difficulties with
    | none => true
    | some ds => ds.contains d.difficulty) &&
  ((match p.required_demon_difficulties with
    | none => true
    | some ds =>
      match d.demon_difficulty with
      | some dd => ds.contains dd
      | none => false) &&
  ((match p.song_id with
    | none => true
    | some s => d.song_ids.contains s) &&
  ((match p.custom_song_id with
    | none => true
    | some s => d.song_ids.contains s) &&
  ((match p.rated_only with
    | none => true
    | some b => if b then decide (0 < d.stars) else d.stars == 0) &&
  ((match p.two_player_only with
    | none => true
    | some b => d.two_player == b) &&
  ((match p.excluded_user_ids, p.required_user_ids with
    | some ex, _ => !(ex.contains d.user_id)
    | none, some req => req.contains d.user_id
    | none, none => true) &&
  (match p.required_level_ids, p.excluded_level_ids with
    | some req, _ => req.contains d.id
    | none, some ex => !(ex.contains d.id)
    | none, none => true))))))))))

/-- The sort key of the single `"{order_by} DESC"` sort clause. -/
def sortKeyVal (ob : OrderBy) (d : MeiliDoc) : Int :=
  match ob with
  | .downloads => d.downloads
  | .likes => d.likes
  | .stars => d.stars

/-- Stable insertion for descending sort. -/
def insertDesc (key : MeiliDoc → Int) (d : MeiliDoc) : List MeiliDoc → List MeiliDoc
  | [] => [d]
  | x :: xs => if key x < key d then d :: x :: xs else x :: insertDesc key d xs

/-- Stable descending sort by a key. -/
def sortDesc (key : MeiliDoc → Int) : List MeiliDoc → List MeiliDoc
  | [] => []
  | x :: xs => insertDesc key x (sortDesc key xs)

/-- `LevelRepository.search`: filter the index, sort descending by the
order key, paginate with `offset = page * page_size`,
`limit = page_size`, and rebuild `Level` records from the hit
documents; the second component is the estimated total. -/
def LevelRepositoryState.search (st : LevelRepositoryState) (p : LevelSearchParams) :
    List Level × Nat :=
  let filtered := st.meili.filter (searchFilter p)
  let hits := ((sortDesc (sortKeyVal p.order_by) filtered).drop (p.page * p.page_size)).take
    p.page_size
  (hits.map from_meili_dict, filtered.length)

/-- `LevelRepository.iterate_all`: all rows, with `WHERE deleted = 0`
unless `include_deleted` is set. -/
def LevelRepositoryState.iterate_all (st : LevelRepositoryState)
    (include_deleted : Bool) : List Level :=
  if include_deleted then st.levels else st.levels.filter (fun l => !l.deleted)

theorem mem_insertDesc (key : MeiliDoc → Int) (x d : MeiliDoc) (l : List MeiliDoc)
    (h : d ∈ insertDesc key x l) : d = x ∨ d ∈ l := by
  induction l with
  | nil => simpa [insertDesc] using h
  | cons y ys ih =>
    rw [insertDesc] at h
    by_cases hk : key y < key x
    · rw [if_pos hk] at h
      rcases List.mem_cons.mp h with h1 | h1
      · exact Or.inl h1
      · exact Or.inr h1
    · rw [if_neg hk] at h
      rcases List.mem_cons.mp h with h1 | h1
      · exact Or.inr (h1 ▸ List.mem_cons_self _ _)
      · rcases ih h1 with h2 | h2
        · exact Or.inl h2
        · exact Or.inr (List.mem_cons_of_mem _ h2)

theorem mem_sortDesc (key : MeiliDoc → Int) (d : MeiliDoc) (l : List MeiliDoc)
    (h : d ∈ sortDesc key l) : d ∈ l := by
  induction l with
  | nil => simpa [sortDesc] using h
  | cons x xs ih =>
    rw [sortDesc] at h
    rcases mem_insertDesc key x d _ h with h1 | h1
    · exact h1 ▸ List.mem_cons_self _ _
    · exact List.mem_cons_of_mem _ (ih h1)

theorem searchFilter_deleted_false (p : LevelSearchParams) (d : MeiliDoc)
    (h : searchFilter p d = true) : d.deleted = false := by
  rw [searchFilter, Bool.and_eq_true] at h
  simpa using h.1

theorem search_results_deleted_false (st : LevelRepositoryState) (p : LevelSearchParams) :
    ∀ l ∈ (LevelRepositoryState.search st p).1, l.deleted = false := by
  intro l hl
  simp only [LevelRepositoryState.search, List.mem_map] at hl
  obtain ⟨d, hd, hdl⟩ := hl
  have hd2 : d ∈ sortDesc (sortKeyVal p.order_by) (st.meili.filter (searchFilter p)) := by
    have := List.mem_of_mem_take hd
    exact List.mem_of_mem_drop this
  have hd3 := mem_sortDesc _ _ _ hd2
  have hd4 := List.of_mem_filter hd3
  have hdel := searchFilter_deleted_false p d hd4
  rw [← hdl]
  simpa [from_meili_dict] using hdel

theorem fetchFirst_of_unique (ls : List Level) (r : Level) (hmem : r ∈ ls)
    (huniq : ∀ l ∈ ls, l.id = r.id → l = r) : fetchFirst ls r.id = some r := by
  induction ls with
  | nil => simp at hmem
  | cons a rest ih =>
    by_cases ha : a.id = r.id
    · have : a = r := huniq a (List.mem_cons_self _ _) ha
      simp [fetchFirst, ha, this]
    · have hane : (a.id == r.id) = false := by simpa using ha
      have hrr : r ∈ rest := by
        rcases List.mem_cons.mp hmem with h1 | h1
        · exact absurd (show a.id = r.id by rw [h1]) ha
        · exact h1
      simp only [fetchFirst, hane, if_false, Bool.false_eq_true]
      exact ih hrr (fun l hl => huniq l (List.mem_cons_of_mem _ hl))

/-- C5: a record marked `deleted` is absent from every `search` result
page (the filter always contains `deleted = 0`), absent from the
default `iterate_all`, yet still returned by `from_id` (which applies
no deleted filter) and by `iterate_all(include_deleted=True)`. -/
theorem soft_delete_visibility :
    (∀ (st : LevelRepositoryState) (p : LevelSearchParams),
      ∀ l ∈ (LevelRepositoryState.search st p).1, l.deleted = false) ∧
    (∀ (st : LevelRepositoryState) (p : LevelSearchParams) (d : MeiliDoc),
      d.deleted = true → from_meili_dict d ∉ (LevelRepositoryState.search st p).1) ∧
    (∀ (st : LevelRepositoryState),
      ∀ l ∈ LevelRepositoryState.iterate_all st false, l.deleted = false) ∧
    (∀ (st : LevelRepositoryState) (l : Level), l ∈ st.levels →
      l ∈ LevelRepositoryState.iterate_all st true) ∧
    (∀ (st : LevelRepositoryState) (r : Level), r ∈ st.levels →
      (∀ l ∈ st.levels, l.id = r.id → l = r) → r.deleted = true →
      LevelRepositoryState.from_id st r.id = some r) := by
  refine ⟨search_results_deleted_false, ?_, ?_, ?_, ?_⟩
  · intro st p d hdel hmem
    have := search_results_deleted_false st p (from_meili_dict d) hmem
    rw [show (from_meili_dict d).deleted = d.deleted from rfl, hdel] at this
    exact absurd this (by simp)
  · intro st l hl
    rw [LevelRepositoryState.iterate_all] at hl
    simp only [if_false, Bool.false_eq_true] at hl
    have := List.of_mem_filter hl
    simpa using this
  · intro st l hl
    simpa [LevelRepositoryState.iterate_all] using hl
  · intro st r hmem huniq _
    exact fetchFirst_of_unique st.levels r hmem huniq

/-- Witness for C5 on a concrete one-level store whose single record is
soft-deleted. -/
theorem soft_delete_visibility_witness :
    (∀ l ∈ (LevelRepositoryState.search
      ⟨[{ sampleLevel with deleted := true }], 8,
        [make_meili_dict { sampleLevel with deleted := true }]⟩ {}).1,
      l.deleted = false) ∧
    from_meili_dict (make_meili_dict { sampleLevel with deleted := true }) ∉
      (LevelRepositoryState.search
        ⟨[{ sampleLevel with deleted := true }], 8,
          [make_meili_dict { sampleLevel with deleted := true }]⟩ {}).1 ∧
    (∀ l ∈ LevelRepositoryState.iterate_all
      ⟨[{ sampleLevel with deleted := true }], 8,
        [make_meili_dict { sampleLevel with deleted := true }]⟩ false,
      l.deleted = false) ∧
    { sampleLevel with deleted := true } ∈ LevelRepositoryState.iterate_all
      ⟨[{ sampleLevel with deleted := true }], 8,
        [make_meili_dict { sampleLevel with deleted := true }]⟩ true ∧
    LevelRepositoryState.from_id
      ⟨[{ sampleLevel with deleted := true }], 8,
        [make_meili_dict { sampleLevel with deleted := true }]⟩
      { sampleLevel with deleted := true }.id =
      some { sampleLevel with deleted := true } :=
  ⟨soft_delete_visibility.1 _ {},
   soft_delete_visibility.2.1 _ {} _ (by decide),
   soft_delete_visibility.2.2.1 _,
   soft_delete_visibility.2.2.2.1 _ _ (by decide),
   soft_delete_visibility.2.2.2.2 _ _ (by decide)
     (fun l hl hid => by
       have : l = { sampleLevel with deleted := true } := by
         simpa using hl
       exact this)
     (by decide)⟩

/-! ### Name-based reads (C6)

In the Python source both `from_name_and_user_id` and `from_name` build
their SQL as

  `"SELECT ..." " AND deleted = 0" if not include_deleted else ""`

Python parses adjacent string literals as one concatenated literal and
the conditional expression then governs the WHOLE concatenation, so
with `include_deleted=True` the executed query string is `""`
(respectively `" LIMIT 1"`, because the trailing `" LIMIT 1"` literal
sits inside the `else` branch's concatenation).  The model builds the
exact query strings the interpreter sees, and executes them through a
`fetch_one` that understands the well-formed SELECT statements and
yields no row for a malformed (non-SELECT) string. -/

/-- The SQL string `from_name_and_user_id` actually passes to
`fetch_one`, as parsed by Python's precedence rules. -/
def from_name_and_user_id_query (include_deleted : Bool) : String :=
  if !include_deleted then
    "SELECT * FROM levels WHERE name = :name AND user_id = :user_id AND deleted = 0"
  else ""

/-- The SQL string `from_name` actually passes to `fetch_one`: the
conditional captures the `" LIMIT 1"` literal into its `else` branch. -/
def from_name_query (include_deleted : Bool) : String :=
  if !include_deleted then
    "SELECT * FROM levels WHERE name = :name AND deleted = 0"
  else " LIMIT 1"

/-- `fetch_one` for the name+user queries: the recognized well-formed
statements select the first matching row; any other string is not a
valid SELECT and produces no row. -/
def fetchOneNameUser (q : String) (ls : List Level) (name : String) (user_id : Int) :
    Option Level :=
  if q = "SELECT * FROM levels WHERE name = :name AND user_id = :user_id AND deleted = 0" then
    ls.find? (fun l => l.name == name && l.user_id == user_id && !l.deleted)
  else if q = "SELECT * FROM levels WHERE name = :name AND user_id = :user_id" then
    ls.find? (fun l => l.name == name && l.user_id == user_id)
  else none

/-- `fetch_one` for the name-only queries. -/
def fetchOneName (q : String) (ls : List Level) (name : String) : Option Level :=
  if q = "SELECT * FROM levels WHERE name = :name AND deleted = 0" then
    ls.find? (fun l => l.name == name && !l.deleted)
  else if q = "SELECT * FROM levels WHERE name = :name LIMIT 1" then
    ls.find? (fun l => l.name == name)
  else none

/-- `LevelRepository.from_name_and_user_id`. -/
def LevelRepositoryState.from_name_and_user_id (st : LevelRepositoryState) (name : String)
    (user_id : Int) (include_deleted : Bool) : Option Level :=
  fetchOneNameUser (from_name_and_user_id_query include_deleted) st.levels name user_id

/-- `LevelRepository.from_name`. -/
def LevelRepositoryState.from_name (st : LevelRepositoryState) (name : String)
    (include_deleted : Bool) : Option Level :=
  fetchOneName (from_name_query include_deleted) st.levels name

/-- C6 against the code as written: the default (`include_deleted`
unset) reads do exclude soft-deleted rows, but with
`include_deleted=True` the built SQL collapses to `""` respectively
`" LIMIT 1"`, so the read yields no row for EVERY store — it can never
return the matching soft-deleted record the claim promises. -/
theorem from_name_include_deleted_broken :
    (∀ (st : LevelRepositoryState) (name : String) (user_id : Int) (r : Level),
      LevelRepositoryState.from_name_and_user_id st name user_id false = some r →
      r.deleted = false) ∧
    (∀ (st : LevelRepositoryState) (name : String) (r : Level),
      LevelRepositoryState.from_name st name false = some r → r.deleted = false) ∧
    from_name_and_user_id_query true = "" ∧
    from_name_query true = " LIMIT 1" ∧
    (∀ (st : LevelRepositoryState) (name : String) (user_id : Int),
      LevelRepositoryState.from_name_and_user_id st name user_id true = none) ∧
    (∀ (st : LevelRepositoryState) (name : String),
      LevelRepositoryState.from_name st name true = none) := by
  refine ⟨?_, ?_, rfl, rfl, fun st name user_id => rfl, fun st name => rfl⟩
  · intro st name user_id r h
    rw [LevelRepositoryState.from_name_and_user_id] at h
    simp only [from_name_and_user_id_query, Bool.not_false, if_true, fetchOneNameUser,
      if_pos rfl] at h
    have := List.find?_some h
    simp only [Bool.and_eq_true, Bool.not_eq_true'] at this
    exact this.2
  · intro st name r h
    rw [LevelRepositoryState.from_name] at h
    simp only [from_name_query, Bool.not_false, if_true, fetchOneName, if_pos rfl] at h
    have := List.find?_some h
    simp only [Bool.and_eq_true, Bool.not_eq_true'] at this
    exact this.2

/-- C6 evaluated at the failing input: with `include_deleted=True` the
built SQL collapses to `""` respectively `" LIMIT 1"` (the conditional
expression swallows the adjacent-literal concatenation), and a store
holding exactly one soft-deleted "Cube Rush" row returns nothing from
either read although the claim promises the matching soft-deleted
record. -/
theorem from_name_include_deleted_failing_input :
    from_name_and_user_id_query true = "" ∧
    from_name_query true = " LIMIT 1" ∧
    { sampleLevel with deleted := true } ∈
      ([{ sampleLevel with deleted := true }] : List Level) ∧
    LevelRepositoryState.from_name_and_user_id
      ⟨[{ sampleLevel with deleted := true }], 8, []⟩ "Cube Rush" 5 true = none ∧
    LevelRepositoryState.from_name
      ⟨[{ sampleLevel with deleted := true }], 8, []⟩ "Cube Rush" true = none := by
  refine ⟨rfl, rfl, by decide, rfl, rfl⟩

/-! ### The cache-backed account lookup facade
(`realistikgdps/repositories/account.py`, C8)

`from_id` checks the process-local cache
(`state.repositories.account_repo`, a mapping from account id to
`Account`), falls back to the relational store, populates the cache
keyed by the loaded record's own id when — and only when — a row was
found, and returns the result.  The third component of the result
records whether the relational store was consulted. -/

structure Account where
  id : Nat
  name : String
  password : String
  email : String
  messages_blocked : Bool
  friend_req_blocked : Bool
  comment_history_hidden : Bool
  youtube_name : Option String
  twitter_name : Option String
  twitch_name : Option String
deriving DecidableEq

structure AccountState where
  cache : List (Nat × Account)
  db : List Account
deriving DecidableEq

/-- `from_cache`: `account_repo.get(account_id)`. -/
def account_from_cache (st : AccountState) (account_id : Nat) : Option Account :=
  dictGet st.cache account_id

/-- `from_db`: `SELECT ... FROM accounts WHERE accountID = :account_id`,
hydrated into an `Account`. -/
def account_from_db (st : AccountState) (account_id : Nat) : Option Account :=
  st.db.find? (fun a => a.id == account_id)

/-- `into_cache`: `account_repo[account.id] = account`. -/
def account_into_cache (st : AccountState) (a : Account) : AccountState :=
  { st with cache := dictSet st.cache a.id a }

/-- `from_id`: cache, then database, then `None`; the `Bool` is true
when the database was consulted. -/
def account_from_id (st : AccountState) (account_id : Nat) :
    Option Account × AccountState × Bool :=
  match account_from_cache st account_id with
  | some a => (some a, st, false)
  | none =>
    match account_from_db st account_id with
    | some a => (some a, account_into_cache st a, true)
    | none => (none, st, true)

/-- C8: a cache hit is returned without touching the relational store
or the state; a miss loads from the store, caches the row under its own
id (which is the requested id) exactly when a row exists, and returns
it; an absent row is returned as absent and not cached. -/
theorem account_lookup_facade :
    (∀ (st : AccountState) (i : Nat) (a : Account),
      account_from_cache st i = some a →
      account_from_id st i = (some a, st, false)) ∧
    (∀ (st : AccountState) (i : Nat) (a : Account),
      account_from_cache st i = none → account_from_db st i = some a →
      account_from_id st i = (some a, account_into_cache st a, true) ∧
      a.id = i ∧
      account_from_cache (account_into_cache st a) a.id = some a) ∧
    (∀ (st : AccountState) (i : Nat),
      account_from_cache st i = none → account_from_db st i = none →
      account_from_id st i = (none, st, true)) := by
  refine ⟨?_, ?_, ?_⟩
  · intro st i a h
    rw [account_from_id, h]
  · intro st i a hc hd
    refine ⟨by rw [account_from_id, hc, hd], ?_, ?_⟩
    · have := List.find?_some hd
      simpa using this
    · rw [account_from_cache, account_into_cache]
      exact dictGet_dictSet_self _ _ _
  · intro st i hc hd
    rw [account_from_id, hc, hd]

/-- Witness for C8 on a concrete two-account state: a hit, a caching
miss, and an uncached absent result. -/
theorem account_lookup_facade_witness :
    account_from_id
      ⟨[(1, ⟨1, "a", "p", "e", false, false, false, none, none, none⟩)],
        [⟨2, "b", "q", "f", false, false, false, none, none, none⟩]⟩ 1 =
      (some ⟨1, "a", "p", "e", false, false, false, none, none, none⟩,
        ⟨[(1, ⟨1, "a", "p", "e", false, false, false, none, none, none⟩)],
          [⟨2, "b", "q", "f", false, false, false, none, none, none⟩]⟩, false) ∧
    account_from_id
      ⟨[(1, ⟨1, "a", "p", "e", false, false, false, none, none, none⟩)],
        [⟨2, "b", "q", "f", false, false, false, none, none, none⟩]⟩ 2 =
      (some ⟨2, "b", "q", "f", false, false, false, none, none, none⟩,
        account_into_cache
          ⟨[(1, ⟨1, "a", "p", "e", false, false, false, none, none, none⟩)],
            [⟨2, "b", "q", "f", false, false, false, none, none, none⟩]⟩
          ⟨2, "b", "q", "f", false, false, false, none, none, none⟩, true) ∧
    account_from_id
      ⟨[(1, ⟨1, "a", "p", "e", false, false, false, none, none, none⟩)],
        [⟨2, "b", "q", "f", false, false, false, none, none, none⟩]⟩ 3 =
      (none,
        ⟨[(1, ⟨1, "a", "p", "e", false, false, false, none, none, none⟩)],
          [⟨2, "b", "q", "f", false, false, false, none, none, none⟩]⟩, true) :=
  ⟨account_lookup_facade.1 _ 1 _ (by decide),
   (account_lookup_facade.2.1 _ 2 _ (by decide) (by decide)).1,
   account_lookup_facade.2.2 _ 3 (by decide) (by decide)⟩

end RGDPS
